import Mathlib

/-!
Verification development for the pdftopod pipeline core
(src/extractor.py, src/generator.py, src/verifier.py, src/models.py).

A backend response is modelled by the result of `json.loads` applied to the
text returned by `_extract_json`: `none` stands for a `json.JSONDecodeError`,
`some j` for a successfully decoded JSON value `j`.  JSON objects are lists of
key/value pairs with distinct keys (as produced by `json.loads`); JSON floats
are not modelled (none of the verified properties involve them).

Python's exception behaviour is made explicit with `Except PyErr`: every stage
function returns `Except PyErr α`, and the `try/except` blocks of the source
are translated as matches on the error constructors that the corresponding
`except` clause names.  Pydantic validation of the `Literal`/`int`/`str`
fields of the models in src/models.py is performed by the `as...` converters
below; a failed validation is `PyErr.validationError` (uncaught everywhere in
the source, since the handlers only catch `json.JSONDecodeError` and
`KeyError`).
-/

/-- Kinds of Python exceptions that can arise in the parsing code paths. -/
inductive PyErr where
  | jsonDecodeError
  | keyError
  | attributeError
  | typeError
  | validationError
  deriving DecidableEq, Repr

/-- JSON values as returned by `json.loads` (floats not modelled). -/
inductive Json where
  | null
  | bool (b : Bool)
  | num (n : Int)
  | str (s : String)
  | arr (elems : List Json)
  | obj (fields : List (String × Json))

/-- Key lookup in a JSON object's field list (keys are distinct). -/
def jLookup : List (String × Json) → String → Option Json
  | [], _ => none
  | (k, v) :: rest, key => if k = key then some v else jLookup rest key

/-- Python `d.get(key, default)`: `AttributeError` when `d` is not a dict. -/
def pyGetD (j : Json) (k : String) (d : Json) : Except PyErr Json :=
  match j with
  | Json.obj fields => Except.ok ((jLookup fields k).getD d)
  | _ => Except.error PyErr.attributeError

/-- Python `d.get(key)` (default `None`). -/
def pyGet (j : Json) (k : String) : Except PyErr Json :=
  pyGetD j k Json.null

/-- Python `d[key]`: `KeyError` when the key is absent from a dict,
`TypeError` when `d` is not a dict (indexing a list/str/int with a str). -/
def pyIndex (j : Json) (k : String) : Except PyErr Json :=
  match j with
  | Json.obj fields =>
      match jLookup fields k with
      | some v => Except.ok v
      | none => Except.error PyErr.keyError
  | _ => Except.error PyErr.typeError

/-- Python iteration `for v in x`: lists yield their elements, strings yield
their one-character substrings, dicts yield their keys, anything else raises
`TypeError`. -/
def pyIter (j : Json) : Except PyErr (List Json) :=
  match j with
  | Json.arr xs => Except.ok xs
  | Json.str s => Except.ok (s.toList.map (fun c => Json.str (String.mk [c])))
  | Json.obj fields => Except.ok (fields.map (fun kv => Json.str kv.1))
  | _ => Except.error PyErr.typeError

/-- Python `j == i` for an int `i` (`True == 1` holds in Python). -/
def pyEqInt (j : Json) (i : Int) : Bool :=
  match j with
  | Json.num n => n == i
  | Json.bool b => (if b then (1 : Int) else 0) == i
  | _ => false

/-- Python `j == s` for a str `s`. -/
def pyEqStr (j : Json) (s : String) : Bool :=
  match j with
  | Json.str t => t == s
  | _ => false

/-- Pydantic validation of a `str` field. -/
def asStr (j : Json) : Except PyErr String :=
  match j with
  | Json.str s => Except.ok s
  | _ => Except.error PyErr.validationError

/-- Pydantic validation of an `int` field. -/
def asInt (j : Json) : Except PyErr Int :=
  match j with
  | Json.num n => Except.ok n
  | _ => Except.error PyErr.validationError

/-- Pydantic validation of an `Optional[int]` field. -/
def asOptInt (j : Json) : Except PyErr (Option Int) :=
  match j with
  | Json.null => Except.ok none
  | Json.num n => Except.ok (some n)
  | _ => Except.error PyErr.validationError

/-- Pydantic validation of an `Optional[str]` field. -/
def asOptStr (j : Json) : Except PyErr (Option String) :=
  match j with
  | Json.null => Except.ok none
  | Json.str s => Except.ok (some s)
  | _ => Except.error PyErr.validationError

/-- Sequential effectful map: the shape of every Python `for` loop of the
source that builds a list, with the first exception aborting the loop. -/
def mapE (f : α → Except PyErr β) : List α → Except PyErr (List β)
  | [] => Except.ok []
  | x :: xs =>
    match f x, mapE f xs with
    | Except.ok y, Except.ok ys => Except.ok (y :: ys)
    | Except.error e, _ => Except.error e
    | Except.ok _, Except.error e => Except.error e

/-- Pydantic validation of a `List[str]` field. -/
def asStrList (j : Json) : Except PyErr (List String) :=
  match j with
  | Json.arr xs => mapE asStr xs
  | _ => Except.error PyErr.validationError

/-! ### Data model (src/models.py) -/

/-- `DialogueLine.speaker : Literal["Alex", "Jordan"]`. -/
inductive Speaker where
  | Alex
  | Jordan
  deriving DecidableEq, Repr

/-- A single line of dialogue (src/models.py `DialogueLine`). -/
structure DialogueLine where
  speaker : Speaker
  text : String
  emotion_cue : Option String
  deriving DecidableEq, Repr

/-- Complete podcast script (src/models.py `PodcastScript`). -/
structure PodcastScript where
  title : String
  dialogue : List DialogueLine
  friction_moment_summary : String
  takeaway_summary : String
  deriving DecidableEq, Repr

/-- Number of words of Python `text.split()` (maximal runs of
non-whitespace characters), counted by a left-to-right scan. -/
def wordsAux : List Char → Bool → Nat
  | [], _ => 0
  | c :: cs, inWord =>
    if c.isWhitespace then wordsAux cs false
    else (if inWord then 0 else 1) + wordsAux cs true

/-- `len(text.split())` for one dialogue line. -/
def pyWordCount (s : String) : Nat := wordsAux s.toList false

/-- `PodcastScript.word_count`: recomputed on each access
(`sum(len(line.text.split()) for line in self.dialogue)`). -/
def wordCount (s : PodcastScript) : Nat :=
  (s.dialogue.map (fun d => pyWordCount d.text)).sum

/-- A planned podcast segment (src/models.py `PodcastSegment`). -/
structure PodcastSegment where
  title : String
  key_points_to_cover : List String
  approach : String
  deriving DecidableEq, Repr

/-- Episode plan (src/models.py `PodcastPlan`). -/
structure PodcastPlan where
  title : String
  opening_hook : String
  segments : List PodcastSegment
  friction_moment : String
  takeaway : String
  deriving DecidableEq, Repr

/-- `KeyPoint.category : Literal["fact", "strategy", "market", "context"]`. -/
inductive KPCategory where
  | fact
  | strategy
  | market
  | context
  deriving DecidableEq, Repr

/-- A key point extracted from a section (src/models.py `KeyPoint`). -/
structure KeyPoint where
  point : String
  category : KPCategory
  source_quote : String
  page : Int
  deriving DecidableEq, Repr

/-- Content of one configured section (src/models.py `SectionContent`). -/
structure SectionContent where
  name : String
  pages : List Int
  raw_text : String
  key_points : List KeyPoint
  deriving DecidableEq, Repr

/-- Complete extracted document (src/models.py `ExtractedDocument`). -/
structure ExtractedDocument where
  title : String
  sections : List SectionContent
  deriving DecidableEq, Repr

/-- A factual claim extracted from the script (src/models.py
`ExtractedClaim`); `line_index` is a Python int, hence `Int`. -/
structure ExtractedClaim where
  claim : String
  script_context : String
  line_index : Int
  deriving DecidableEq, Repr

/-- `ClaimVerification.status : Literal["SUPPORTED", "PARTIALLY_SUPPORTED",
"NOT_FOUND"]`. -/
inductive VStatus where
  | SUPPORTED
  | PARTIALLY_SUPPORTED
  | NOT_FOUND
  deriving DecidableEq, Repr

/-- Verification result for one claim (src/models.py `ClaimVerification`). -/
structure ClaimVerification where
  claim : String
  script_context : String
  source_page : Option Int
  source_quote : Option String
  status : VStatus
  explanation : String
  deriving DecidableEq, Repr

/-- `CoverageItem.status : Literal["FULL", "PARTIAL", "OMITTED"]`. -/
inductive CStatus where
  | FULL
  | PARTIAL
  | OMITTED
  deriving DecidableEq, Repr

/-- Coverage analysis for one section (src/models.py `CoverageItem`);
the count fields are Python ints with no range constraint. -/
structure CoverageItem where
  «section» : String
  status : CStatus
  key_points_total : Int
  key_points_covered : Int
  covered : List String
  omitted : List String
  deriving DecidableEq, Repr

/-- Pydantic validation of the `speaker` field. -/
def asSpeaker (j : Json) : Except PyErr Speaker :=
  match j with
  | Json.str "Alex" => Except.ok Speaker.Alex
  | Json.str "Jordan" => Except.ok Speaker.Jordan
  | _ => Except.error PyErr.validationError

/-- Pydantic validation of the key-point `category` field. -/
def asCategory (j : Json) : Except PyErr KPCategory :=
  match j with
  | Json.str "fact" => Except.ok KPCategory.fact
  | Json.str "strategy" => Except.ok KPCategory.strategy
  | Json.str "market" => Except.ok KPCategory.market
  | Json.str "context" => Except.ok KPCategory.context
  | _ => Except.error PyErr.validationError

/-- Pydantic validation of the verification `status` field. -/
def asVStatus (j : Json) : Except PyErr VStatus :=
  match j with
  | Json.str "SUPPORTED" => Except.ok VStatus.SUPPORTED
  | Json.str "PARTIALLY_SUPPORTED" => Except.ok VStatus.PARTIALLY_SUPPORTED
  | Json.str "NOT_FOUND" => Except.ok VStatus.NOT_FOUND
  | _ => Except.error PyErr.validationError

/-- Pydantic validation of the coverage `status` field. -/
def asCStatus (j : Json) : Except PyErr CStatus :=
  match j with
  | Json.str "FULL" => Except.ok CStatus.FULL
  | Json.str "PARTIAL" => Except.ok CStatus.PARTIAL
  | Json.str "OMITTED" => Except.ok CStatus.OMITTED
  | _ => Except.error PyErr.validationError

/-! ### Dialogue Stage (src/generator.py) -/

/-- `except (json.JSONDecodeError, KeyError): return fb` wrapped around a
`try` body `x`: exactly those two exception kinds are replaced by the
fallback value, every other exception propagates. -/
def catchParseFailure (fb : α) (x : Except PyErr α) : Except PyErr α :=
  match x with
  | Except.error PyErr.jsonDecodeError => Except.ok fb
  | Except.error PyErr.keyError => Except.ok fb
  | r => r

/-- `except json.JSONDecodeError: return fb` wrapped around a `try` body
`x` (the extractor's handler, which does not catch `KeyError`). -/
def catchDecodeFailure (fb : α) (x : Except PyErr α) : Except PyErr α :=
  match x with
  | Except.error PyErr.jsonDecodeError => Except.ok fb
  | r => r

/-- The script built by the `except` branch of
`GeneratorAgent._parse_dialogue_json`: empty dialogue, metadata from the
plan. -/
def fallbackScript (plan : PodcastPlan) : PodcastScript :=
  { title := plan.title
    dialogue := []
    friction_moment_summary := plan.friction_moment
    takeaway_summary := plan.takeaway }

/-- One entry of the `"dialogue"` list:
`DialogueLine(speaker=d["speaker"], text=d["text"],
emotion_cue=d.get("emotion_cue"))` — indexing first, then pydantic
validation of the three fields. -/
def parseDialogueLine (d : Json) : Except PyErr DialogueLine :=
  match pyIndex d "speaker" with
  | Except.error e => Except.error e
  | Except.ok sj =>
  match pyIndex d "text" with
  | Except.error e => Except.error e
  | Except.ok tj =>
  match pyGet d "emotion_cue" with
  | Except.error e => Except.error e
  | Except.ok ej =>
  match asSpeaker sj with
  | Except.error e => Except.error e
  | Except.ok sp =>
  match asStr tj with
  | Except.error e => Except.error e
  | Except.ok tx =>
  match asOptStr ej with
  | Except.error e => Except.error e
  | Except.ok em => Except.ok { speaker := sp, text := tx, emotion_cue := em }

/-- Body of the `try` block of `GeneratorAgent._parse_dialogue_json`:
the dialogue comprehension over `data.get("dialogue", [])`, then the
`PodcastScript` construction with its `data.get(..., plan default)`
fields. -/
def parseDialogueCore (plan : PodcastPlan) (data : Json) : Except PyErr PodcastScript :=
  match pyGetD data "dialogue" (Json.arr []) with
  | Except.error e => Except.error e
  | Except.ok raw =>
  match pyIter raw with
  | Except.error e => Except.error e
  | Except.ok entries =>
  match mapE parseDialogueLine entries with
  | Except.error e => Except.error e
  | Except.ok lines =>
  match pyGetD data "title" (Json.str plan.title) with
  | Except.error e => Except.error e
  | Except.ok tj =>
  match asStr tj with
  | Except.error e => Except.error e
  | Except.ok t =>
  match pyGetD data "friction_moment_summary" (Json.str plan.friction_moment) with
  | Except.error e => Except.error e
  | Except.ok fj =>
  match asStr fj with
  | Except.error e => Except.error e
  | Except.ok fr =>
  match pyGetD data "takeaway_summary" (Json.str plan.takeaway) with
  | Except.error e => Except.error e
  | Except.ok kj =>
  match asStr kj with
  | Except.error e => Except.error e
  | Except.ok tk =>
      Except.ok { title := t, dialogue := lines,
                  friction_moment_summary := fr, takeaway_summary := tk }

/-- `GeneratorAgent._parse_dialogue_json`: `resp = none` is a
`json.JSONDecodeError` from `json.loads`; the `except (JSONDecodeError,
KeyError)` clause catches exactly those two kinds and substitutes the
fallback script. -/
def parseDialogueJson (plan : PodcastPlan) (resp : Option Json) : Except PyErr PodcastScript :=
  match resp with
  | none => Except.ok (fallbackScript plan)
  | some data => catchParseFailure (fallbackScript plan) (parseDialogueCore plan data)

/-- `GeneratorAgent._expand_script`: the current script appears only in the
expansion prompt; the returned value is `_parse_dialogue_json(json_str,
plan)` applied to the new response, so the parsed result replaces the
input script entirely. -/
def expandScript (script : PodcastScript) (plan : PodcastPlan)
    (resp : Option Json) : Except PyErr PodcastScript :=
  parseDialogueJson plan resp

/-- `min_words = 1800` in `GeneratorAgent._generate_dialogue`. -/
def MIN_WORDS : Nat := 1800

/-- `max_expansion_attempts = 2` in `GeneratorAgent._generate_dialogue`. -/
def MAX_EXPANSION_ATTEMPTS : Nat := 2

/-- The `for attempt in range(max_expansion_attempts)` loop of
`GeneratorAgent._generate_dialogue`: `fuel` counts the remaining loop
iterations, `calls` the expansion calls made so far (also indexing the
next expansion response), and the pair returned carries the final script
together with the total number of expansion calls. -/
def expansionLoop (plan : PodcastPlan) (resps : Nat → Option Json) :
    Nat → PodcastScript → Nat → Except PyErr (PodcastScript × Nat)
  | 0, s, calls => Except.ok (s, calls)
  | fuel + 1, s, calls =>
    if MIN_WORDS ≤ wordCount s then Except.ok (s, calls)
    else
      match expandScript s plan (resps calls) with
      | Except.error e => Except.error e
      | Except.ok s2 => expansionLoop plan resps fuel s2 (calls + 1)

/-- `GeneratorAgent._generate_dialogue`: initial parse of the generation
response, then the bounded expansion loop.  `initResp` is the initial
dialogue response, `expandResps k` the response to the (k+1)-st expansion
call. -/
def generateDialogue (plan : PodcastPlan) (initResp : Option Json)
    (expandResps : Nat → Option Json) : Except PyErr (PodcastScript × Nat) :=
  match parseDialogueJson plan initResp with
  | Except.error e => Except.error e
  | Except.ok s0 => expansionLoop plan expandResps MAX_EXPANSION_ATTEMPTS s0 0

/-! ### Extraction Stage (src/extractor.py) -/

/-- One entry of the `"key_points"` list:
`KeyPoint(point=kp["point"], category=kp["category"],
source_quote=kp["source_quote"], page=kp["page"])` — all four use direct
indexing, so a missing key is a `KeyError`. -/
def parseKeyPoint (kp : Json) : Except PyErr KeyPoint :=
  match pyIndex kp "point" with
  | Except.error e => Except.error e
  | Except.ok pj =>
  match pyIndex kp "category" with
  | Except.error e => Except.error e
  | Except.ok cj =>
  match pyIndex kp "source_quote" with
  | Except.error e => Except.error e
  | Except.ok qj =>
  match pyIndex kp "page" with
  | Except.error e => Except.error e
  | Except.ok gj =>
  match asStr pj with
  | Except.error e => Except.error e
  | Except.ok p =>
  match asCategory cj with
  | Except.error e => Except.error e
  | Except.ok c =>
  match asStr qj with
  | Except.error e => Except.error e
  | Except.ok q =>
  match asInt gj with
  | Except.error e => Except.error e
  | Except.ok g => Except.ok { point := p, category := c, source_quote := q, page := g }

/-- Body of the `try` block of `ExtractorAgent._extract_key_points`:
the loop over `data.get("key_points", [])`. -/
def extractKeyPointsCore (data : Json) : Except PyErr (List KeyPoint) :=
  match pyGetD data "key_points" (Json.arr []) with
  | Except.error e => Except.error e
  | Except.ok raw =>
  match pyIter raw with
  | Except.error e => Except.error e
  | Except.ok entries => mapE parseKeyPoint entries

/-- `ExtractorAgent._extract_key_points` response handling: the `except`
clause catches only `json.JSONDecodeError` (modelled by `resp = none` and
by the otherwise unreachable internal case); a `KeyError` from a missing
key, and every validation error, propagate. -/
def extractKeyPoints (resp : Option Json) : Except PyErr (List KeyPoint) :=
  match resp with
  | none => Except.ok []
  | some data => catchDecodeFailure [] (extractKeyPointsCore data)

/-! ### Claim Extraction Stage (src/verifier.py `_extract_claims`) -/

/-- One entry of the `"claims"` list:
`ExtractedClaim(claim=c["claim"], script_context=c["script_context"],
line_index=c.get("line_index", 0))`. -/
def parseClaimEntry (c : Json) : Except PyErr ExtractedClaim :=
  match pyIndex c "claim" with
  | Except.error e => Except.error e
  | Except.ok cj =>
  match pyIndex c "script_context" with
  | Except.error e => Except.error e
  | Except.ok xj =>
  match pyGetD c "line_index" (Json.num 0) with
  | Except.error e => Except.error e
  | Except.ok lj =>
  match asStr cj with
  | Except.error e => Except.error e
  | Except.ok cl =>
  match asStr xj with
  | Except.error e => Except.error e
  | Except.ok cx =>
  match asInt lj with
  | Except.error e => Except.error e
  | Except.ok li => Except.ok { claim := cl, script_context := cx, line_index := li }

/-- Body of the `try` block of `VerifierAgent._extract_claims`: the loop over
`data.get("claims", [])`. -/
def extractClaimsCore (data : Json) : Except PyErr (List ExtractedClaim) :=
  match pyGetD data "claims" (Json.arr []) with
  | Except.error e => Except.error e
  | Except.ok raw =>
  match pyIter raw with
  | Except.error e => Except.error e
  | Except.ok entries => mapE parseClaimEntry entries

/-- `VerifierAgent._extract_claims` response handling: the script appears
only in the prompt, so the extracted list is a function of the response
alone; `except (json.JSONDecodeError, KeyError)` returns `[]`. -/
def extractClaims (resp : Option Json) : Except PyErr (List ExtractedClaim) :=
  match resp with
  | none => Except.ok []
  | some data => catchParseFailure [] (extractClaimsCore data)

/-- The `"claims"` entry list of a decoded claim-extraction response
(the list the loop of `_extract_claims` iterates over), `[]` when that
computation would raise. -/
def respClaimEntries (data : Json) : List Json :=
  match pyGetD data "claims" (Json.arr []) with
  | Except.error _ => []
  | Except.ok raw =>
    match pyIter raw with
    | Except.error _ => []
    | Except.ok entries => entries

/-- The reported `line_index` of one claims entry lies in `[0, n)`
(entries that parseClaimEntry would reject are not constrained; an entry
without `"line_index"` defaults to index 0, valid only when `0 < n`). -/
def entryIdxOK (n : Nat) (e : Json) : Bool :=
  match e with
  | Json.obj fields =>
    match jLookup fields "line_index" with
    | some (Json.num i) => decide (0 ≤ i ∧ i < (n : Int))
    | some _ => true
    | none => decide (0 < n)
  | _ => true

/-! ### Batched Verification Stage (src/verifier.py `_verify_claims_batched`) -/

/-- `BATCH_SIZE = 15` (src/verifier.py module constant). -/
def BATCH_SIZE : Nat := 15

/-- Structural worker for `toBatches`: the fuel only bounds the recursion
depth (each step drops at least one element, so `l.length` fuel always
suffices and the `0, _ :: _` arm is never reached from `toBatches`). -/
def toBatchesAux : Nat → List α → List (List α)
  | _, [] => []
  | 0, _ :: _ => []
  | fuel + 1, x :: xs =>
    ((x :: xs).take BATCH_SIZE) :: toBatchesAux fuel ((x :: xs).drop BATCH_SIZE)

/-- `for batch_start in range(0, len(claims), BATCH_SIZE): batch =
claims[batch_start:batch_end]` — the consecutive batches of at most
`BATCH_SIZE` claims. -/
def toBatches (l : List α) : List (List α) := toBatchesAux l.length l

/-- `batch_verifications = data.get("verifications", [])` of one decoded
batch response, as the element sequence the per-claim `next(...)` scans
iterate over. -/
def respVerifEntries (data : Json) : Except PyErr (List Json) :=
  match pyGetD data "verifications" (Json.arr []) with
  | Except.error e => Except.error e
  | Except.ok raw => pyIter raw

/-- `next((v for v in batch_verifications if v.get("claim_id") == i),
default)`: scan left to right, stopping at the first match; `v.get` on a
non-dict element raises `AttributeError`. -/
def findByClaimId : List Json → Int → Except PyErr (Option Json)
  | [], _ => Except.ok none
  | v :: rest, i =>
    match pyGet v "claim_id" with
    | Except.error e => Except.error e
    | Except.ok cid =>
      if pyEqInt cid i then Except.ok (some v) else findByClaimId rest i

/-- The fallback `ClaimVerification` appended for every claim of a batch
whose response failed to parse. -/
def failedCV (c : ExtractedClaim) : ClaimVerification :=
  { claim := c.claim
    script_context := c.script_context
    source_page := none
    source_quote := none
    status := VStatus.NOT_FOUND
    explanation := "Batch verification failed" }

/-- The `ClaimVerification` built from the default
`{"status": "NOT_FOUND", "explanation": "No verification returned"}`
supplied to `next` when no entry matches the claim's local index. -/
def defaultCV (c : ExtractedClaim) : ClaimVerification :=
  { claim := c.claim
    script_context := c.script_context
    source_page := none
    source_quote := none
    status := VStatus.NOT_FOUND
    explanation := "No verification returned" }

/-- `ClaimVerification(claim=claim.claim, script_context=claim.script_context,
source_page=v_data.get("source_page"), source_quote=v_data.get("source_quote"),
status=v_data.get("status", "NOT_FOUND"),
explanation=v_data.get("explanation", ""))` with pydantic validation of the
four response-derived fields. -/
def mkCV (c : ExtractedClaim) (v : Json) : Except PyErr ClaimVerification :=
  match pyGet v "source_page" with
  | Except.error e => Except.error e
  | Except.ok pj =>
  match pyGet v "source_quote" with
  | Except.error e => Except.error e
  | Except.ok qj =>
  match pyGetD v "status" (Json.str "NOT_FOUND") with
  | Except.error e => Except.error e
  | Except.ok sj =>
  match pyGetD v "explanation" (Json.str "") with
  | Except.error e => Except.error e
  | Except.ok ej =>
  match asOptInt pj with
  | Except.error e => Except.error e
  | Except.ok sp =>
  match asOptStr qj with
  | Except.error e => Except.error e
  | Except.ok sq =>
  match asVStatus sj with
  | Except.error e => Except.error e
  | Except.ok st =>
  match asStr ej with
  | Except.error e => Except.error e
  | Except.ok ex =>
      Except.ok { claim := c.claim, script_context := c.script_context,
                  source_page := sp, source_quote := sq, status := st,
                  explanation := ex }

/-- The body of one iteration of `for i, claim in enumerate(batch)`. -/
def verifyOne (bvs : List Json) (i : Nat) (c : ExtractedClaim) :
    Except PyErr ClaimVerification :=
  match findByClaimId bvs (Int.ofNat i) with
  | Except.error e => Except.error e
  | Except.ok (some v) => mkCV c v
  | Except.ok none => Except.ok (defaultCV c)

/-- `for i, claim in enumerate(batch)` with running local index `i`. -/
def verifyEach (bvs : List Json) : Nat → List ExtractedClaim →
    Except PyErr (List ClaimVerification)
  | _, [] => Except.ok []
  | i, c :: cs =>
    match verifyOne bvs i c, verifyEach bvs (i + 1) cs with
    | Except.ok w, Except.ok rest => Except.ok (w :: rest)
    | Except.error e, _ => Except.error e
    | Except.ok _, Except.error e => Except.error e

/-- Handling of one batch: `resp = none` is a `json.JSONDecodeError` from
`json.loads`, handled by the `except (json.JSONDecodeError, KeyError)`
clause that marks the whole batch failed; the same clause also guards the
loop body (whose only possible errors are in fact `AttributeError`,
`TypeError` and pydantic validation errors, none of which it catches). -/
def processBatch (batch : List ExtractedClaim) (resp : Option Json) :
    Except PyErr (List ClaimVerification) :=
  match resp with
  | none => Except.ok (batch.map failedCV)
  | some data =>
    catchParseFailure (batch.map failedCV)
      (match respVerifEntries data with
       | Except.error e => Except.error e
       | Except.ok bvs => verifyEach bvs 0 batch)

/-- The batch loop, concatenating per-batch results in order; batch `k`
consumes the response `resps k`. -/
def verifyBatches (resps : Nat → Option Json) :
    List (List ExtractedClaim) → Except PyErr (List ClaimVerification)
  | [] => Except.ok []
  | b :: bs =>
    match processBatch b (resps 0), verifyBatches (fun i => resps (i + 1)) bs with
    | Except.ok ys, Except.ok rest => Except.ok (ys ++ rest)
    | Except.error e, _ => Except.error e
    | Except.ok _, Except.error e => Except.error e

/-- `VerifierAgent._verify_claims_batched` as a function of the claim list
and of the per-batch backend responses (the source document only shapes the
prompts). -/
def verifyClaimsBatched (claims : List ExtractedClaim)
    (resps : Nat → Option Json) : Except PyErr (List ClaimVerification) :=
  verifyBatches resps (toBatches claims)

/-! ### Batched Coverage Stage (src/verifier.py `_analyze_coverage_batched`) -/

/-- The synthesized safe-default `CoverageItem` for a section: used both
when the response omits the section by name and (for every section) when
the whole response fails to parse. -/
def fallbackCoverage (s : SectionContent) : CoverageItem :=
  { «section» := s.name
    status := CStatus.PARTIAL
    key_points_total := Int.ofNat s.key_points.length
    key_points_covered := 0
    covered := []
    omitted := s.key_points.map (fun kp => kp.point) }

/-- `data.get("coverage", [])` of the decoded coverage response, as the
element sequence the per-section `next(...)` scans iterate over (the
generator re-evaluates it for each section; it is pure, so computing it
once per section is equivalent). -/
def respCoverageEntries (data : Json) : Except PyErr (List Json) :=
  match pyGetD data "coverage" (Json.arr []) with
  | Except.error e => Except.error e
  | Except.ok raw => pyIter raw

/-- `next((c for c in ... if c.get("section") == section.name), None)`:
matching is by exact string equality on the section name. -/
def findBySection : List Json → String → Except PyErr (Option Json)
  | [], _ => Except.ok none
  | c :: rest, name =>
    match pyGet c "section" with
    | Except.error e => Except.error e
    | Except.ok sj =>
      if pyEqStr sj name then Except.ok (some c) else findBySection rest name

/-- `CoverageItem(section=section.name, status=c_data.get("status",
"PARTIAL"), key_points_total=c_data.get("key_points_total",
len(section.key_points)), key_points_covered=c_data.get(
"key_points_covered", 0), covered=c_data.get("covered", []),
omitted=c_data.get("omitted", []))` with pydantic validation of the
response-derived fields. -/
def mkCoverageItem (s : SectionContent) (c : Json) : Except PyErr CoverageItem :=
  match pyGetD c "status" (Json.str "PARTIAL") with
  | Except.error e => Except.error e
  | Except.ok sj =>
  match pyGetD c "key_points_total" (Json.num (Int.ofNat s.key_points.length)) with
  | Except.error e => Except.error e
  | Except.ok tj =>
  match pyGetD c "key_points_covered" (Json.num 0) with
  | Except.error e => Except.error e
  | Except.ok vj =>
  match pyGetD c "covered" (Json.arr []) with
  | Except.error e => Except.error e
  | Except.ok cj =>
  match pyGetD c "omitted" (Json.arr []) with
  | Except.error e => Except.error e
  | Except.ok oj =>
  match asCStatus sj with
  | Except.error e => Except.error e
  | Except.ok st =>
  match asInt tj with
  | Except.error e => Except.error e
  | Except.ok tot =>
  match asInt vj with
  | Except.error e => Except.error e
  | Except.ok cov =>
  match asStrList cj with
  | Except.error e => Except.error e
  | Except.ok cl =>
  match asStrList oj with
  | Except.error e => Except.error e
  | Except.ok ol =>
      Except.ok { «section» := s.name, status := st, key_points_total := tot,
                  key_points_covered := cov, covered := cl, omitted := ol }

/-- The body of one iteration of `for section in doc.sections`. -/
def coverageOne (data : Json) (s : SectionContent) : Except PyErr CoverageItem :=
  match respCoverageEntries data with
  | Except.error e => Except.error e
  | Except.ok cov =>
    match findBySection cov s.name with
    | Except.error e => Except.error e
    | Except.ok (some c) => mkCoverageItem s c
    | Except.ok none => Except.ok (fallbackCoverage s)

/-- `VerifierAgent._analyze_coverage_batched` as a function of the
configured sections and of the single coverage response (the script only
shapes the prompt).  `resp = none` is a `json.JSONDecodeError`, handled by
the `except (json.JSONDecodeError, KeyError)` clause that substitutes the
full fallback list; that clause also guards the loop body. -/
def analyzeCoverageBatched (sections : List SectionContent)
    (resp : Option Json) : Except PyErr (List CoverageItem) :=
  match resp with
  | none => Except.ok (sections.map fallbackCoverage)
  | some data =>
    catchParseFailure (sections.map fallbackCoverage) (mapE (coverageOne data) sections)

/-! ### Report Aggregator (src/verifier.py `verify_script`) -/

/-- `sum(1 for v in verifications if v.status == st)`. -/
def countStatus (vs : List ClaimVerification) (st : VStatus) : Nat :=
  vs.countP (fun v => decide (v.status = st))

/-- `(supported + partial * 0.5) / len(verifications) * 100 if verifications
else 0`, in exact arithmetic (0.5 is exactly representable; no verified
property depends on float rounding). -/
def supportRate (vs : List ClaimVerification) : Rat :=
  if vs.isEmpty then 0
  else ((countStatus vs VStatus.SUPPORTED : Rat) +
        (countStatus vs VStatus.PARTIALLY_SUPPORTED : Rat) * (1 / 2)) /
       (vs.length : Rat) * 100

/-- `total_key_points = sum(c.key_points_total for c in coverage)`. -/
def totalKeyPoints (items : List CoverageItem) : Int :=
  (items.map (fun c => c.key_points_total)).sum

/-- `covered_key_points = sum(c.key_points_covered for c in coverage)`. -/
def coveredKeyPoints (items : List CoverageItem) : Int :=
  (items.map (fun c => c.key_points_covered)).sum

/-- `covered_key_points / total_key_points * 100 if total_key_points > 0
else 0`. -/
def coveragePct (items : List CoverageItem) : Rat :=
  if 0 < totalKeyPoints items then
    (coveredKeyPoints items : Rat) / (totalKeyPoints items : Rat) * 100
  else 0

/-- Complete verification report (src/models.py `VerificationReport`). -/
structure VerificationReport where
  document_title : String
  script_title : String
  script_word_count : Nat
  total_claims : Nat
  supported_claims : Nat
  partially_supported_claims : Nat
  unsupported_claims : Nat
  support_rate : Rat
  overall_coverage_percentage : Rat
  claim_verifications : List ClaimVerification
  coverage_analysis : List CoverageItem
  hallucination_flags : List ClaimVerification
  deriving DecidableEq, Repr

/-- `VerifierAgent.verify_script`: claim extraction, batched verification,
batched coverage, then the pure aggregation into the report.  The three
response arguments stand for the backend's behaviour on the three kinds of
calls the stage makes. -/
def verifyScript (script : PodcastScript) (doc : ExtractedDocument)
    (claimResp : Option Json) (batchResps : Nat → Option Json)
    (covResp : Option Json) : Except PyErr VerificationReport :=
  match extractClaims claimResp with
  | Except.error e => Except.error e
  | Except.ok claims =>
  match verifyClaimsBatched claims batchResps with
  | Except.error e => Except.error e
  | Except.ok verifications =>
  match analyzeCoverageBatched doc.sections covResp with
  | Except.error e => Except.error e
  | Except.ok coverage =>
      Except.ok
        { document_title := doc.title
          script_title := script.title
          script_word_count := wordCount script
          total_claims := claims.length
          supported_claims := countStatus verifications VStatus.SUPPORTED
          partially_supported_claims :=
            countStatus verifications VStatus.PARTIALLY_SUPPORTED
          unsupported_claims := countStatus verifications VStatus.NOT_FOUND
          support_rate := supportRate verifications
          overall_coverage_percentage := coveragePct coverage
          claim_verifications := verifications
          coverage_analysis := coverage
          hallucination_flags :=
            verifications.filter (fun v => decide (v.status = VStatus.NOT_FOUND)) }

/-- Modelled from the spec: `support_rate = (supported_count + 0.5 *
partially_supported_count) / total_claims * 100`, defined as 0 when there
are no claims (section 4.8 of the specification, worded as written there,
for comparison with the implementation's `supportRate`). -/
def supportRateSpec (vs : List ClaimVerification) : Rat :=
  if vs.length = 0 then 0
  else ((countStatus vs VStatus.SUPPORTED : Rat) +
        (1 / 2) * (countStatus vs VStatus.PARTIALLY_SUPPORTED : Rat)) /
       (vs.length : Rat) * 100

/-! ### Concrete fixtures for the closed witness and counterexample theorems -/

/-- A small episode plan. -/
def wPlan : PodcastPlan :=
  { title := "Plan title", opening_hook := "hook", segments := [],
    friction_moment := "friction", takeaway := "takeaway" }

/-- A short pre-expansion script (word_count 2, below the 1800 threshold). -/
def wScript : PodcastScript :=
  { title := "Script title",
    dialogue := [{ speaker := Speaker.Alex, text := "hello world", emotion_cue := none }],
    friction_moment_summary := "f", takeaway_summary := "t" }

/-- A configured section with one key point. -/
def wSection : SectionContent :=
  { name := "Overview", pages := [1], raw_text := "raw text",
    key_points := [{ point := "a point", category := KPCategory.fact,
                     source_quote := "a quote", page := 1 }] }

/-- A document with no configured sections (keeps the report free of
rational divisions, so the pipeline run evaluates by `rfl`). -/
def wDoc : ExtractedDocument := { title := "Doc title", sections := [] }

/-- Two extracted claims. -/
def wClaim0 : ExtractedClaim :=
  { claim := "claim zero", script_context := "context zero", line_index := 0 }

/-- Second extracted claim. -/
def wClaim1 : ExtractedClaim :=
  { claim := "claim one", script_context := "context one", line_index := 1 }

/-- A batch response verifying only local index 0. -/
def wVerifResp : Json :=
  Json.obj [("verifications", Json.arr
    [Json.obj [("claim_id", Json.num 0), ("status", Json.str "SUPPORTED"),
               ("explanation", Json.str "ok")]])]

/-- A decoded dialogue payload whose entry is missing the "speaker" key
(raises `KeyError`, which `_parse_dialogue_json` catches). -/
def wKeyErrorDialogue : Json :=
  Json.obj [("dialogue", Json.arr [Json.obj []])]

/-- A decoded key-points payload whose entry is missing the "category" key
(raises `KeyError`, which `_extract_key_points` does not catch). -/
def wMissingCategory : Json :=
  Json.obj [("key_points", Json.arr
    [Json.obj [("point", Json.str "p"), ("source_quote", Json.str "q"),
               ("page", Json.num 3)]])]

/-- A decoded key-points payload whose "category" value is outside the
declared enumeration (pydantic validation error, uncaught). -/
def wBadCategory : Json :=
  Json.obj [("key_points", Json.arr
    [Json.obj [("point", Json.str "p"), ("category", Json.str "opinion"),
               ("source_quote", Json.str "q"), ("page", Json.num 3)]])]

/-- A coverage response reporting 500 covered points out of 1. -/
def wCoverageResp : Json :=
  Json.obj [("coverage", Json.arr
    [Json.obj [("section", Json.str "Overview"), ("key_points_total", Json.num 1),
               ("key_points_covered", Json.num 500)]])]

/-- The coverage item built from `wCoverageResp`. -/
def wBigItem : CoverageItem :=
  { «section» := "Overview", status := CStatus.PARTIAL, key_points_total := 1,
    key_points_covered := 500, covered := [], omitted := [] }

/-- A coverage response reporting a negative key_points_total. -/
def wNegResp : Json :=
  Json.obj [("coverage", Json.arr
    [Json.obj [("section", Json.str "Overview"),
               ("key_points_total", Json.num (-1)),
               ("key_points_covered", Json.num 5)]])]

/-- The coverage item built from `wNegResp`. -/
def wNegTotalItem : CoverageItem :=
  { «section» := "Overview", status := CStatus.PARTIAL, key_points_total := -1,
    key_points_covered := 5, covered := [], omitted := [] }

/-- A coverage response with an empty coverage list (omits every section). -/
def wEmptyCov : Json := Json.obj [("coverage", Json.arr [])]

/-- A claim-extraction response reporting line_index 99. -/
def wClaimsResp99 : Json :=
  Json.obj [("claims", Json.arr
    [Json.obj [("claim", Json.str "c"), ("script_context", Json.str "x"),
               ("line_index", Json.num 99)]])]

/-- A claim-extraction response reporting line_index 0. -/
def wClaimsRespGood : Json :=
  Json.obj [("claims", Json.arr
    [Json.obj [("claim", Json.str "c"), ("script_context", Json.str "x"),
               ("line_index", Json.num 0)]])]

/-- The report produced by `verifyScript wScript wDoc` when all three
backend responses fail to decode. -/
def wReport : VerificationReport :=
  { document_title := "Doc title", script_title := "Script title",
    script_word_count := 2, total_claims := 0, supported_claims := 0,
    partially_supported_claims := 0, unsupported_claims := 0,
    support_rate := 0, overall_coverage_percentage := 0,
    claim_verifications := [], coverage_analysis := [],
    hallucination_flags := [] }

/-! ### Helper lemmas -/

theorem expansionLoop_mono (plan : PodcastPlan) (resps : Nat → Option Json) :
    ∀ (fuel : Nat) (s : PodcastScript) (calls : Nat) (s' : PodcastScript) (n : Nat),
      expansionLoop plan resps fuel s calls = Except.ok (s', n) → calls ≤ n := by
  intro fuel
  induction fuel with
  | zero =>
    intro s calls s' n h
    simp only [expansionLoop] at h
    cases h
    exact Nat.le_refl _
  | succ k ih =>
    intro s calls s' n h
    simp only [expansionLoop] at h
    by_cases hw : MIN_WORDS ≤ wordCount s
    · rw [if_pos hw] at h
      cases h
      exact Nat.le_refl _
    · rw [if_neg hw] at h
      cases hx : expandScript s plan (resps calls) with
      | error e => rw [hx] at h; cases h
      | ok s2 =>
        rw [hx] at h
        exact Nat.le_of_succ_le (ih s2 (calls + 1) s' n h)

theorem expansionLoop_le (plan : PodcastPlan) (resps : Nat → Option Json) :
    ∀ (fuel : Nat) (s : PodcastScript) (calls : Nat) (s' : PodcastScript) (n : Nat),
      expansionLoop plan resps fuel s calls = Except.ok (s', n) → n ≤ calls + fuel := by
  intro fuel
  induction fuel with
  | zero =>
    intro s calls s' n h
    simp only [expansionLoop] at h
    cases h
    exact Nat.le_refl _
  | succ k ih =>
    intro s calls s' n h
    simp only [expansionLoop] at h
    by_cases hw : MIN_WORDS ≤ wordCount s
    · rw [if_pos hw] at h
      cases h
      exact Nat.le_add_right _ _
    · rw [if_neg hw] at h
      cases hx : expandScript s plan (resps calls) with
      | error e => rw [hx] at h; cases h
      | ok s2 =>
        rw [hx] at h
        have := ih s2 (calls + 1) s' n h
        omega

theorem expansionLoop_enter (plan : PodcastPlan) (resps : Nat → Option Json)
    {fuel : Nat} {s : PodcastScript} {calls : Nat} {s' : PodcastScript} {n : Nat}
    (h : expansionLoop plan resps (fuel + 1) s calls = Except.ok (s', n))
    (hw : wordCount s < MIN_WORDS) : calls + 1 ≤ n := by
  simp only [expansionLoop] at h
  rw [if_neg (by omega)] at h
  cases hx : expandScript s plan (resps calls) with
  | error e => rw [hx] at h; cases h
  | ok s2 =>
    rw [hx] at h
    exact expansionLoop_mono plan resps fuel s2 (calls + 1) s' n h

theorem mapE_ok_length {f : α → Except PyErr β} :
    ∀ {xs : List α} {ys : List β}, mapE f xs = Except.ok ys → ys.length = xs.length := by
  intro xs
  induction xs with
  | nil => intro ys h; simp only [mapE] at h; cases h; rfl
  | cons x xs ih =>
    intro ys h
    simp only [mapE] at h
    cases hx : f x with
    | error e => rw [hx] at h; cases h
    | ok y =>
      rw [hx] at h
      cases hxs : mapE f xs with
      | error e => rw [hxs] at h; cases h
      | ok ys0 =>
        rw [hxs] at h
        cases h
        simp [ih hxs]

theorem mapE_ok_get {f : α → Except PyErr β} :
    ∀ {xs : List α} {ys : List β}, mapE f xs = Except.ok ys →
      ∀ (j : Nat) (hj : j < xs.length) (hj' : j < ys.length),
        f xs[j] = Except.ok ys[j] := by
  intro xs
  induction xs with
  | nil => intro ys h j hj; exact absurd hj (by simp)
  | cons x xs ih =>
    intro ys h j hj hj'
    simp only [mapE] at h
    cases hx : f x with
    | error e => rw [hx] at h; cases h
    | ok y =>
      rw [hx] at h
      cases hxs : mapE f xs with
      | error e => rw [hxs] at h; cases h
      | ok ys0 =>
        rw [hxs] at h
        cases h
        cases j with
        | zero => simpa using hx
        | succ j0 =>
          simp only [List.getElem_cons_succ]
          exact ih hxs j0 (by simpa using hj) (by simpa using hj')

theorem mapE_ok_mem {f : α → Except PyErr β} :
    ∀ {xs : List α} {ys : List β}, mapE f xs = Except.ok ys →
      ∀ y ∈ ys, ∃ x ∈ xs, f x = Except.ok y := by
  intro xs
  induction xs with
  | nil => intro ys h y hy; simp only [mapE] at h; cases h; simp at hy
  | cons x xs ih =>
    intro ys h y hy
    simp only [mapE] at h
    cases hx : f x with
    | error e => rw [hx] at h; cases h
    | ok y0 =>
      rw [hx] at h
      cases hxs : mapE f xs with
      | error e => rw [hxs] at h; cases h
      | ok ys0 =>
        rw [hxs] at h
        cases h
        rcases List.mem_cons.mp hy with h0 | h0
        · exact ⟨x, List.mem_cons_self x xs, h0 ▸ hx⟩
        · rcases ih hxs y h0 with ⟨x0, hx0, hfx0⟩
          exact ⟨x0, List.mem_cons_of_mem x hx0, hfx0⟩


theorem pyGetD_err {j : Json} {k : String} {d : Json} {e : PyErr}
    (h : pyGetD j k d = Except.error e) : e = PyErr.attributeError := by
  unfold pyGetD at h
  split at h <;> cases h <;> rfl

theorem pyGet_err {j : Json} {k : String} {e : PyErr}
    (h : pyGet j k = Except.error e) : e = PyErr.attributeError :=
  pyGetD_err h

theorem pyIter_err {j : Json} {e : PyErr}
    (h : pyIter j = Except.error e) : e = PyErr.typeError := by
  unfold pyIter at h
  split at h <;> cases h <;> rfl

theorem asStr_err {j : Json} {e : PyErr}
    (h : asStr j = Except.error e) : e = PyErr.validationError := by
  unfold asStr at h
  split at h <;> cases h <;> rfl

theorem asInt_err {j : Json} {e : PyErr}
    (h : asInt j = Except.error e) : e = PyErr.validationError := by
  unfold asInt at h
  split at h <;> cases h <;> rfl

theorem asOptInt_err {j : Json} {e : PyErr}
    (h : asOptInt j = Except.error e) : e = PyErr.validationError := by
  unfold asOptInt at h
  split at h <;> cases h <;> rfl

theorem asOptStr_err {j : Json} {e : PyErr}
    (h : asOptStr j = Except.error e) : e = PyErr.validationError := by
  unfold asOptStr at h
  split at h <;> cases h <;> rfl

theorem asVStatus_err {j : Json} {e : PyErr}
    (h : asVStatus j = Except.error e) : e = PyErr.validationError := by
  unfold asVStatus at h
  split at h <;> cases h <;> rfl

theorem asCStatus_err {j : Json} {e : PyErr}
    (h : asCStatus j = Except.error e) : e = PyErr.validationError := by
  unfold asCStatus at h
  split at h <;> cases h <;> rfl

theorem mapE_err_mem {f : α → Except PyErr β} :
    ∀ {xs : List α} {e : PyErr}, mapE f xs = Except.error e →
      ∃ x ∈ xs, f x = Except.error e := by
  intro xs
  induction xs with
  | nil => intro e h; simp only [mapE] at h; cases h
  | cons x xs ih =>
    intro e h
    simp only [mapE] at h
    cases hx : f x with
    | error e0 =>
      rw [hx] at h
      cases h
      exact ⟨x, List.mem_cons_self x xs, hx⟩
    | ok y =>
      rw [hx] at h
      cases hxs : mapE f xs with
      | error e0 =>
        rw [hxs] at h
        cases h
        rcases ih hxs with ⟨x0, hx0, hfx0⟩
        exact ⟨x0, List.mem_cons_of_mem x hx0, hfx0⟩
      | ok ys => rw [hxs] at h; cases h

theorem asStrList_err {j : Json} {e : PyErr}
    (h : asStrList j = Except.error e) : e = PyErr.validationError := by
  unfold asStrList at h
  split at h
  · rcases mapE_err_mem h with ⟨x, _, hx⟩
    exact asStr_err hx
  · cases h; rfl

theorem mkCV_claim_ctx {c : ExtractedClaim} {v : Json} {w : ClaimVerification}
    (h : mkCV c v = Except.ok w) :
    w.claim = c.claim ∧ w.script_context = c.script_context := by
  unfold mkCV at h
  iterate 9 (all_goals try split at h)
  all_goals cases h
  exact ⟨rfl, rfl⟩

theorem mkCV_err {c : ExtractedClaim} {v : Json} {e : PyErr}
    (h : mkCV c v = Except.error e) :
    e = PyErr.attributeError ∨ e = PyErr.validationError := by
  unfold mkCV at h
  iterate 9 (all_goals try split at h)
  all_goals cases h
  all_goals
    first
      | exact Or.inl (pyGet_err (by assumption))
      | exact Or.inl (pyGetD_err (by assumption))
      | exact Or.inr (asOptInt_err (by assumption))
      | exact Or.inr (asOptStr_err (by assumption))
      | exact Or.inr (asVStatus_err (by assumption))
      | exact Or.inr (asStr_err (by assumption))

theorem verifyOne_claim_ctx {bvs : List Json} {i : Nat} {c : ExtractedClaim}
    {w : ClaimVerification} (h : verifyOne bvs i c = Except.ok w) :
    w.claim = c.claim ∧ w.script_context = c.script_context := by
  unfold verifyOne at h
  split at h
  · cases h
  · exact mkCV_claim_ctx h
  · cases h; exact ⟨rfl, rfl⟩

theorem verifyOne_default {bvs : List Json} {i : Nat} (c : ExtractedClaim)
    (h : findByClaimId bvs (Int.ofNat i) = Except.ok none) :
    verifyOne bvs i c = Except.ok (defaultCV c) := by
  unfold verifyOne
  rw [h]

theorem findByClaimId_err :
    ∀ {bvs : List Json} {i : Int} {e : PyErr},
      findByClaimId bvs i = Except.error e → e = PyErr.attributeError := by
  intro bvs
  induction bvs with
  | nil => intro i e h; simp only [findByClaimId] at h; cases h
  | cons v rest ih =>
    intro i e h
    simp only [findByClaimId] at h
    split at h
    · cases h
      exact pyGet_err (by assumption)
    · split at h
      · cases h
      · exact ih h

theorem verifyOne_err {bvs : List Json} {i : Nat} {c : ExtractedClaim} {e : PyErr}
    (h : verifyOne bvs i c = Except.error e) :
    e = PyErr.attributeError ∨ e = PyErr.validationError := by
  unfold verifyOne at h
  split at h
  · cases h
    exact Or.inl (findByClaimId_err (by assumption))
  · exact mkCV_err h
  · cases h

theorem verifyEach_err :
    ∀ {b : List ExtractedClaim} {bvs : List Json} {i : Nat} {e : PyErr},
      verifyEach bvs i b = Except.error e →
      e = PyErr.attributeError ∨ e = PyErr.validationError := by
  intro b
  induction b with
  | nil => intro bvs i e h; simp only [verifyEach] at h; cases h
  | cons c cs ih =>
    intro bvs i e h
    simp only [verifyEach] at h
    cases h1 : verifyOne bvs i c with
    | error e0 =>
      rw [h1] at h
      cases h
      exact verifyOne_err h1
    | ok w =>
      rw [h1] at h
      cases h2 : verifyEach bvs (i + 1) cs with
      | error e0 =>
        rw [h2] at h
        cases h
        exact ih h2
      | ok rest => rw [h2] at h; cases h

theorem respVerifEntries_err {data : Json} {e : PyErr}
    (h : respVerifEntries data = Except.error e) :
    e = PyErr.attributeError ∨ e = PyErr.typeError := by
  unfold respVerifEntries at h
  split at h
  · cases h
    exact Or.inl (pyGetD_err (by assumption))
  · exact Or.inr (pyIter_err h)

theorem verifyEach_ok_spec :
    ∀ {b : List ExtractedClaim} {bvs : List Json} {i : Nat}
      {ys : List ClaimVerification}, verifyEach bvs i b = Except.ok ys →
      ys.length = b.length ∧
      ∀ (j : Nat) (hj : j < b.length) (hj' : j < ys.length),
        verifyOne bvs (i + j) b[j] = Except.ok ys[j] := by
  intro b
  induction b with
  | nil =>
    intro bvs i ys h
    simp only [verifyEach] at h
    cases h
    exact ⟨rfl, fun j hj => absurd hj (by simp)⟩
  | cons c cs ih =>
    intro bvs i ys h
    simp only [verifyEach] at h
    cases h1 : verifyOne bvs i c with
    | error e0 => rw [h1] at h; cases h
    | ok w =>
      rw [h1] at h
      cases h2 : verifyEach bvs (i + 1) cs with
      | error e0 => rw [h2] at h; cases h
      | ok rest =>
        rw [h2] at h
        cases h
        rcases ih h2 with ⟨hlen, hget⟩
        refine ⟨by simp [hlen], ?_⟩
        intro j hj hj'
        cases j with
        | zero => simpa using h1
        | succ j0 =>
          simp only [List.getElem_cons_succ]
          have := hget j0 (by simpa using hj) (by simpa using hj')
          have harith : i + 1 + j0 = i + (j0 + 1) := by omega
          rw [harith] at this
          exact this

theorem catchParseFailure_ok {fb ys : α} {x : Except PyErr α}
    (h : catchParseFailure fb x = Except.ok ys) :
    x = Except.ok ys ∨
    (ys = fb ∧ (x = Except.error PyErr.jsonDecodeError ∨
                x = Except.error PyErr.keyError)) := by
  unfold catchParseFailure at h
  split at h
  · cases h; exact Or.inr ⟨rfl, Or.inl rfl⟩
  · cases h; exact Or.inr ⟨rfl, Or.inr rfl⟩
  · exact Or.inl h

theorem catchDecodeFailure_ok {fb ys : α} {x : Except PyErr α}
    (h : catchDecodeFailure fb x = Except.ok ys) :
    x = Except.ok ys ∨ (ys = fb ∧ x = Except.error PyErr.jsonDecodeError) := by
  unfold catchDecodeFailure at h
  split at h
  · cases h; exact Or.inr ⟨rfl, rfl⟩
  · exact Or.inl h

theorem toBatchesAux_nil (fuel : Nat) : toBatchesAux fuel ([] : List α) = [] := by
  cases fuel <;> rfl

theorem toBatchesAux_congr :
    ∀ (fuel1 : Nat) (fuel2 : Nat) (l : List α), l.length ≤ fuel1 → l.length ≤ fuel2 →
      toBatchesAux fuel1 l = toBatchesAux fuel2 l := by
  intro fuel1
  induction fuel1 with
  | zero =>
    intro fuel2 l h1 _
    have : l = [] := List.length_eq_zero.mp (Nat.le_zero.mp h1)
    subst this
    rw [toBatchesAux_nil, toBatchesAux_nil]
  | succ f ih =>
    intro fuel2 l h1 h2
    cases l with
    | nil => rw [toBatchesAux_nil, toBatchesAux_nil]
    | cons x xs =>
      cases fuel2 with
      | zero => exact absurd h2 (by simp)
      | succ f2 =>
        simp only [toBatchesAux]
        congr 1
        apply ih
        · simp only [List.length_drop, List.length_cons, BATCH_SIZE]
          simp only [List.length_cons] at h1
          omega
        · simp only [List.length_drop, List.length_cons, BATCH_SIZE]
          simp only [List.length_cons] at h2
          omega

theorem toBatches_nil : toBatches ([] : List α) = [] := rfl

theorem toBatches_cons (x : α) (xs : List α) :
    toBatches (x :: xs) =
      ((x :: xs).take BATCH_SIZE) :: toBatches ((x :: xs).drop BATCH_SIZE) := by
  show toBatchesAux (x :: xs).length (x :: xs) = _
  simp only [List.length_cons, toBatchesAux]
  congr 1
  apply toBatchesAux_congr
  · simp only [List.length_drop, List.length_cons]
    simp only [BATCH_SIZE]
    omega
  · exact Nat.le_refl _

theorem toBatches_flat : ∀ (l : List α), (toBatches l).flatten = l
  | [] => by simp [toBatches_nil]
  | x :: xs => by
      rw [toBatches_cons]
      simp only [List.flatten_cons]
      have hrec := toBatches_flat ((x :: xs).drop BATCH_SIZE)
      rw [hrec]
      exact List.take_append_drop _ _
termination_by l => l.length
decreasing_by simp [BATCH_SIZE]; omega

theorem toBatches_length : ∀ (l : List α),
    (toBatches l).length = (l.length + BATCH_SIZE - 1) / BATCH_SIZE
  | [] => by simp [toBatches_nil, BATCH_SIZE]
  | x :: xs => by
      rw [toBatches_cons]
      rw [List.length_cons, toBatches_length ((x :: xs).drop BATCH_SIZE)]
      simp only [List.length_drop, List.length_cons, BATCH_SIZE]
      omega
termination_by l => l.length
decreasing_by simp [BATCH_SIZE]; omega

theorem toBatches_sizes : ∀ (l : List α), ∀ b ∈ toBatches l,
    0 < b.length ∧ b.length ≤ BATCH_SIZE
  | [] => by simp [toBatches_nil]
  | x :: xs => by
      intro b hb
      rw [toBatches_cons] at hb
      rcases List.mem_cons.mp hb with rfl | hmem
      · constructor
        · simp [List.length_take, BATCH_SIZE]
        · simp [List.length_take]
      · exact toBatches_sizes ((x :: xs).drop BATCH_SIZE) b hmem
termination_by l => l.length
decreasing_by simp [BATCH_SIZE]; omega

theorem toBatches_dropLast : ∀ (l : List α), ∀ b ∈ (toBatches l).dropLast,
    b.length = BATCH_SIZE
  | [] => by simp [toBatches_nil]
  | x :: xs => by
      intro b hb
      rw [toBatches_cons] at hb
      cases hr : toBatches ((x :: xs).drop BATCH_SIZE) with
      | nil => rw [hr] at hb; simp at hb
      | cons r rs =>
        rw [hr] at hb
        rw [List.dropLast_cons₂] at hb
        rcases List.mem_cons.mp hb with rfl | hmem
        · have hd : (x :: xs).drop BATCH_SIZE ≠ [] := by
            intro hnil
            rw [hnil, toBatches_nil] at hr
            cases hr
          have hlen : BATCH_SIZE < (x :: xs).length := by
            rcases Nat.lt_or_ge BATCH_SIZE (x :: xs).length with hlt | hge
            · exact hlt
            · exact absurd (List.drop_eq_nil_iff.mpr hge) hd
          simp only [List.length_take]
          omega
        · have := toBatches_dropLast ((x :: xs).drop BATCH_SIZE) b
          rw [hr] at this
          exact this hmem
termination_by l => l.length
decreasing_by simp [BATCH_SIZE]; omega

theorem processBatch_ok_spec {b : List ExtractedClaim} {r : Option Json}
    {ys : List ClaimVerification} (h : processBatch b r = Except.ok ys) :
    ys.length = b.length ∧
    ∀ (j : Nat) (hj : j < b.length) (hj' : j < ys.length),
      (ys[j].claim = b[j].claim ∧ ys[j].script_context = b[j].script_context) ∧
      (r = none → ys[j] = failedCV b[j]) ∧
      (∀ data : Json, r = some data →
        ∀ bvs : List Json, respVerifEntries data = Except.ok bvs →
          findByClaimId bvs (Int.ofNat j) = Except.ok none →
          ys[j] = defaultCV b[j]) := by
  cases r with
  | none =>
    simp only [processBatch] at h
    cases h
    refine ⟨by simp, ?_⟩
    intro j hj hj'
    refine ⟨?_, ?_, ?_⟩
    · rw [List.getElem_map]
      exact ⟨rfl, rfl⟩
    · intro _
      rw [List.getElem_map]
    · intro data hd
      cases hd
  | some data =>
    simp only [processBatch] at h
    rcases catchParseFailure_ok h with hin | ⟨hfb, herr⟩
    · cases h0 : respVerifEntries data with
      | error e => rw [h0] at hin; cases hin
      | ok bvs =>
        rw [h0] at hin
        rcases verifyEach_ok_spec hin with ⟨hlen, hget⟩
        refine ⟨hlen, ?_⟩
        intro j hj hj'
        have hone := hget j hj hj'
        rw [Nat.zero_add] at hone
        refine ⟨verifyOne_claim_ctx hone, ?_, ?_⟩
        · intro habs; cases habs
        · intro data2 hd2 bvs2 hb2 hfind
          cases hd2
          rw [h0] at hb2
          cases hb2
          have hdef := @verifyOne_default bvs j b[j] hfind
          rw [hone] at hdef
          injection hdef with hdef
    · exfalso
      rcases herr with he | he
      all_goals
        cases h0 : respVerifEntries data with
        | error e0 =>
          rw [h0] at he
          injection he with he
          rcases respVerifEntries_err h0 with h1 | h1 <;> simp [h1] at he
        | ok bvs =>
          rw [h0] at he
          rcases verifyEach_err he with h1 | h1 <;> cases h1

theorem verifyClaimsBatched_ok_spec :
    ∀ (claims : List ExtractedClaim) (resps : Nat → Option Json)
      (vs : List ClaimVerification),
      verifyClaimsBatched claims resps = Except.ok vs →
      vs.length = claims.length ∧
      ∀ (k : Nat) (hk : k < claims.length) (hk' : k < vs.length),
        (vs[k].claim = claims[k].claim ∧
         vs[k].script_context = claims[k].script_context) ∧
        (resps (k / BATCH_SIZE) = none → vs[k] = failedCV claims[k]) ∧
        (∀ data : Json, resps (k / BATCH_SIZE) = some data →
          ∀ bvs : List Json, respVerifEntries data = Except.ok bvs →
            findByClaimId bvs (Int.ofNat (k % BATCH_SIZE)) = Except.ok none →
            vs[k] = defaultCV claims[k])
  | [], resps, vs, h => by
      simp only [verifyClaimsBatched, toBatches_nil, verifyBatches] at h
      cases h
      exact ⟨rfl, fun k hk => absurd hk (by simp)⟩
  | x :: xs, resps, vs, h => by
      simp only [verifyClaimsBatched] at h
      rw [toBatches_cons] at h
      simp only [verifyBatches] at h
      cases h1 : processBatch ((x :: xs).take BATCH_SIZE) (resps 0) with
      | error e => rw [h1] at h; cases h
      | ok ys =>
        rw [h1] at h
        cases h2 : verifyBatches (fun i => resps (i + 1))
            (toBatches ((x :: xs).drop BATCH_SIZE)) with
        | error e => rw [h2] at h; cases h
        | ok rest =>
          rw [h2] at h
          cases h
          have hrec := verifyClaimsBatched_ok_spec ((x :: xs).drop BATCH_SIZE)
            (fun i => resps (i + 1)) rest h2
          rcases processBatch_ok_spec h1 with ⟨hlen1, hget1⟩
          rcases hrec with ⟨hlen2, hget2⟩
          have hbl : ys.length = min BATCH_SIZE (xs.length + 1) := by
            rw [hlen1]; simp
          have hrl : rest.length = (xs.length + 1) - BATCH_SIZE := by
            rw [hlen2]; simp
          constructor
          · simp only [List.length_append, List.length_cons, hbl, hrl]
            omega
          · intro k hk hk'
            by_cases hcase : k < ys.length
            · have hkt : k < ((x :: xs).take BATCH_SIZE).length := by
                rw [← hlen1]; exact hcase
              have hkb : k < BATCH_SIZE := by
                have := hbl ▸ hcase
                omega
              have e1 : (ys ++ rest)[k] = ys[k] :=
                List.getElem_append_left hcase
              have e2 : ((x :: xs).take BATCH_SIZE)[k] = (x :: xs)[k] :=
                List.getElem_take (x :: xs)
              have hdiv : k / BATCH_SIZE = 0 := Nat.div_eq_of_lt hkb
              have hmod : k % BATCH_SIZE = k := Nat.mod_eq_of_lt hkb
              obtain ⟨hcc, hnone, hsome⟩ := hget1 k hkt hcase
              rw [e2] at hcc hnone hsome
              rw [hdiv, hmod, e1]
              exact ⟨hcc, hnone, hsome⟩
            · have hyb : ys.length = BATCH_SIZE := by
                have hk2 : k < xs.length + 1 := by simpa using hk
                omega
              have hkge : BATCH_SIZE ≤ k := by omega
              have hkr : k - BATCH_SIZE < rest.length := by
                simp only [List.length_append] at hk'
                omega
              have hkd : k - BATCH_SIZE < ((x :: xs).drop BATCH_SIZE).length := by
                rw [← hlen2]; exact hkr
              have hbr : k - ys.length < rest.length := by omega
              have hbk : BATCH_SIZE + (k - BATCH_SIZE) < (x :: xs).length := by
                simp only [List.length_cons]
                simp only [List.length_drop, List.length_cons] at hkd
                omega
              have e1 : (ys ++ rest)[k] = rest[k - ys.length] :=
                List.getElem_append_right (by omega)
              have e1b : rest[k - ys.length] = rest[k - BATCH_SIZE] := by
                congr 1
                omega
              have e2 : ((x :: xs).drop BATCH_SIZE)[k - BATCH_SIZE]
                  = (x :: xs)[BATCH_SIZE + (k - BATCH_SIZE)] :=
                List.getElem_drop (x :: xs)
              have e2b : (x :: xs)[BATCH_SIZE + (k - BATCH_SIZE)] = (x :: xs)[k] := by
                congr 1
                omega
              have hdiv : (k - BATCH_SIZE) / BATCH_SIZE + 1 = k / BATCH_SIZE := by
                simp only [BATCH_SIZE] at hkge ⊢
                omega
              have hmod : (k - BATCH_SIZE) % BATCH_SIZE = k % BATCH_SIZE := by
                simp only [BATCH_SIZE] at hkge ⊢
                omega
              obtain ⟨hcc, hnone, hsome⟩ := hget2 (k - BATCH_SIZE) hkd hkr
              rw [e2, e2b] at hcc hnone hsome
              rw [e1, e1b, ← hdiv, ← hmod]
              exact ⟨hcc, hnone, hsome⟩
termination_by claims => claims.length
decreasing_by simp [BATCH_SIZE]; omega

theorem mkCoverageItem_section {s : SectionContent} {c : Json} {item : CoverageItem}
    (h : mkCoverageItem s c = Except.ok item) : item.«section» = s.name := by
  unfold mkCoverageItem at h
  iterate 11 (all_goals try split at h)
  all_goals cases h
  rfl

theorem coverageOne_section {data : Json} {s : SectionContent} {item : CoverageItem}
    (h : coverageOne data s = Except.ok item) : item.«section» = s.name := by
  unfold coverageOne at h
  split at h
  · cases h
  · split at h
    · cases h
    · exact mkCoverageItem_section h
    · cases h; rfl

theorem analyzeCoverage_ok_spec {sections : List SectionContent} {resp : Option Json}
    {items : List CoverageItem}
    (h : analyzeCoverageBatched sections resp = Except.ok items) :
    items.length = sections.length ∧
    ∀ (k : Nat) (hk : k < sections.length) (hk' : k < items.length),
      items[k].«section» = sections[k].name ∧
      (resp = none → items[k] = fallbackCoverage sections[k]) ∧
      (∀ data : Json, resp = some data →
        ∀ cov : List Json, respCoverageEntries data = Except.ok cov →
          findBySection cov sections[k].name = Except.ok none →
          items[k] = fallbackCoverage sections[k]) := by
  cases resp with
  | none =>
    simp only [analyzeCoverageBatched] at h
    cases h
    refine ⟨by simp, ?_⟩
    intro k hk hk'
    refine ⟨?_, ?_, ?_⟩
    · rw [List.getElem_map]; rfl
    · intro _; rw [List.getElem_map]
    · intro data hd; cases hd
  | some data =>
    simp only [analyzeCoverageBatched] at h
    rcases catchParseFailure_ok h with hin | ⟨hfb, _⟩
    · have hlen := mapE_ok_length hin
      refine ⟨hlen, ?_⟩
      intro k hk hk'
      have hone := mapE_ok_get hin k hk hk'
      refine ⟨coverageOne_section hone, ?_, ?_⟩
      · intro habs; cases habs
      · intro data2 hd2 cov hcov hfind
        cases hd2
        have hfb2 : coverageOne data sections[k] = Except.ok (fallbackCoverage sections[k]) := by
          simp only [coverageOne, hcov, hfind]
        rw [hfb2] at hone
        exact (Except.ok.inj hone).symm
    · subst hfb
      refine ⟨by simp, ?_⟩
      intro k hk hk'
      refine ⟨?_, ?_, ?_⟩
      · rw [List.getElem_map]; rfl
      · intro habs; cases habs
      · intro data2 _ cov _ _
        rw [List.getElem_map]

theorem countStatus_le (vs : List ClaimVerification) :
    countStatus vs VStatus.SUPPORTED + countStatus vs VStatus.PARTIALLY_SUPPORTED
      ≤ vs.length := by
  induction vs with
  | nil => simp [countStatus]
  | cons v vs ih =>
    simp only [countStatus, List.countP_cons, List.length_cons] at ih ⊢
    cases hst : v.status <;> simp [hst] <;> omega

theorem supportRate_bounds (vs : List ClaimVerification) :
    0 ≤ supportRate vs ∧ supportRate vs ≤ 100 := by
  unfold supportRate
  by_cases he : vs.isEmpty
  · simp [he]
  · rw [if_neg he]
    have hne : vs ≠ [] := by simpa [List.isEmpty_iff] using he
    have hn : 0 < (vs.length : Rat) := by
      have h0 : 0 < vs.length := List.length_pos.mpr hne
      exact_mod_cast h0
    have hcount := countStatus_le vs
    have h1 : (countStatus vs VStatus.SUPPORTED : Rat) +
        (countStatus vs VStatus.PARTIALLY_SUPPORTED : Rat) ≤ (vs.length : Rat) := by
      exact_mod_cast hcount
    have hp0 : (0 : Rat) ≤ (countStatus vs VStatus.PARTIALLY_SUPPORTED : Rat) := by
      positivity
    have hs0 : (0 : Rat) ≤ (countStatus vs VStatus.SUPPORTED : Rat) := by
      positivity
    constructor
    · positivity
    · rw [div_mul_eq_mul_div, div_le_iff hn]
      nlinarith

theorem coveragePct_zero {items : List CoverageItem}
    (h : totalKeyPoints items ≤ 0) : coveragePct items = 0 := by
  unfold coveragePct
  rw [if_neg (not_lt.mpr h)]

theorem coveragePct_bounds {items : List CoverageItem}
    (hgood : ∀ it ∈ items,
      0 ≤ it.key_points_covered ∧ it.key_points_covered ≤ it.key_points_total) :
    0 ≤ coveragePct items ∧ coveragePct items ≤ 100 := by
  unfold coveragePct
  by_cases ht : 0 < totalKeyPoints items
  · rw [if_pos ht]
    have hcov0 : 0 ≤ coveredKeyPoints items := by
      apply List.sum_nonneg
      intro x hx
      rcases List.mem_map.mp hx with ⟨it, hit, rfl⟩
      exact (hgood it hit).1
    have hcovle : coveredKeyPoints items ≤ totalKeyPoints items :=
      List.sum_le_sum (fun it hit => (hgood it hit).2)
    have htq : 0 < (totalKeyPoints items : Rat) := by exact_mod_cast ht
    have hcq : 0 ≤ (coveredKeyPoints items : Rat) := by exact_mod_cast hcov0
    have hlq : (coveredKeyPoints items : Rat) ≤ (totalKeyPoints items : Rat) := by
      exact_mod_cast hcovle
    constructor
    · positivity
    · rw [div_mul_eq_mul_div, div_le_iff htq]
      nlinarith
  · rw [if_neg ht]
    norm_num

theorem supportRate_eq_spec (vs : List ClaimVerification) :
    supportRate vs = supportRateSpec vs := by
  unfold supportRate supportRateSpec
  by_cases he : vs.isEmpty
  · have h0 : vs.length = 0 := by
      simp [List.isEmpty_iff] at he
      simp [he]
    simp [he, h0]
  · have hlen : ¬ vs.length = 0 := by
      simp [List.isEmpty_iff] at he
      simpa [List.length_eq_zero] using he
    rw [if_neg he, if_neg hlen]
    ring

theorem asInt_ok {j : Json} {i : Int} (h : asInt j = Except.ok i) : j = Json.num i := by
  unfold asInt at h
  split at h
  · injection h with h
    rw [h]
  · cases h

theorem parseClaimEntry_ok_obj {e : Json} {c : ExtractedClaim}
    (h : parseClaimEntry e = Except.ok c) :
    ∃ fields : List (String × Json), e = Json.obj fields := by
  cases e with
  | obj fields => exact ⟨fields, rfl⟩
  | null => simp [parseClaimEntry, pyIndex] at h
  | bool b => simp [parseClaimEntry, pyIndex] at h
  | num n => simp [parseClaimEntry, pyIndex] at h
  | str s => simp [parseClaimEntry, pyIndex] at h
  | arr xs => simp [parseClaimEntry, pyIndex] at h

theorem parseClaimEntry_idx {fields : List (String × Json)} {c : ExtractedClaim}
    (h : parseClaimEntry (Json.obj fields) = Except.ok c) :
    (jLookup fields "line_index" = none ∧ c.line_index = 0) ∨
    (∃ i : Int, jLookup fields "line_index" = some (Json.num i) ∧ c.line_index = i) := by
  unfold parseClaimEntry at h
  cases hj : jLookup fields "line_index" with
  | none =>
    left
    refine ⟨rfl, ?_⟩
    simp only [pyGetD, hj, Option.getD] at h
    iterate 6 (all_goals try split at h)
    all_goals try cases h
    rename_i li heq
    simp only [asInt] at heq
    cases heq
    rfl
  | some v =>
    simp only [pyGetD, hj, Option.getD] at h
    iterate 6 (all_goals try split at h)
    all_goals try cases h
    rename_i li heq
    right
    exact ⟨li, by rw [asInt_ok heq], rfl⟩

theorem extractClaims_idx_spec {data : Json} {claims : List ExtractedClaim} {n : Nat}
    (h : extractClaims (some data) = Except.ok claims)
    (hok : ∀ e ∈ respClaimEntries data, entryIdxOK n e = true) :
    ∀ c ∈ claims, 0 ≤ c.line_index ∧ c.line_index < (n : Int) := by
  intro c hc
  simp only [extractClaims] at h
  rcases catchParseFailure_ok h with hin | ⟨hfb, _⟩
  · unfold extractClaimsCore at hin
    split at hin
    · cases hin
    · rename_i raw h0
      split at hin
      · cases hin
      · rename_i entries h1
        have hre : respClaimEntries data = entries := by
          simp only [respClaimEntries, h0, h1]
        rcases mapE_ok_mem hin c hc with ⟨e, he, hpe⟩
        rcases parseClaimEntry_ok_obj hpe with ⟨fields, rfl⟩
        have hoke := hok (Json.obj fields) (by rw [hre]; exact he)
        simp only [entryIdxOK] at hoke
        rcases parseClaimEntry_idx hpe with ⟨hnone, hzero⟩ | ⟨i, hsome, hval⟩
        · rw [hnone] at hoke
          have hn : 0 < n := of_decide_eq_true hoke
          rw [hzero]
          constructor
          · exact le_refl 0
          · exact_mod_cast hn
        · rw [hsome] at hoke
          have hb : 0 ≤ i ∧ i < (n : Int) := of_decide_eq_true hoke
          rw [hval]
          exact hb
  · subst hfb
    simp at hc

/-! ### Claim theorems -/

/-- Claim C1, counterexample: for the concrete below-threshold script
`wScript` (2 words), an expansion attempt whose response fails to parse as
dialogue JSON does not return `wScript` unchanged: it returns the
plan-derived fallback script, whose dialogue list is empty. -/
theorem expand_failure_not_preserving_cex :
    wordCount wScript < 1800 ∧
    expandScript wScript wPlan none = Except.ok (fallbackScript wPlan) ∧
    fallbackScript wPlan ≠ wScript ∧
    (fallbackScript wPlan).dialogue = [] ∧
    wScript.dialogue ≠ [] := by
  refine ⟨by decide, rfl, by decide, rfl, by decide⟩

/-- Claim C1, amended: when an expansion attempt's response fails to parse
as dialogue JSON (decode failure, or `KeyError` inside the payload), the
result of `_expand_script` is the plan-derived fallback script with empty
dialogue and word_count 0 — the pre-expansion script is discarded, not
preserved. -/
theorem expand_failure_fallback :
    ∀ (script : PodcastScript) (plan : PodcastPlan),
      expandScript script plan none = Except.ok (fallbackScript plan) ∧
      (fallbackScript plan).dialogue = [] ∧
      wordCount (fallbackScript plan) = 0 ∧
      ∀ data : Json, parseDialogueCore plan data = Except.error PyErr.keyError →
        expandScript script plan (some data) = Except.ok (fallbackScript plan) := by
  intro script plan
  refine ⟨rfl, rfl, rfl, ?_⟩
  intro data h
  simp only [expandScript, parseDialogueJson, h]
  rfl

/-- Claim C1, witness for the amended theorem: a concrete payload whose
dialogue entry is missing the speaker key. -/
theorem expand_failure_fallback_wit :
    parseDialogueCore wPlan wKeyErrorDialogue = Except.error PyErr.keyError ∧
    expandScript wScript wPlan (some wKeyErrorDialogue) =
      Except.ok (fallbackScript wPlan) :=
  ⟨rfl, (expand_failure_fallback wScript wPlan).2.2.2 wKeyErrorDialogue rfl⟩

/-- Claim C2, counterexample: a valid-JSON key-points payload with a
missing key raises an uncaught `KeyError` from the extraction stage, and
one with a category outside the declared enumeration raises an uncaught
validation error — both propagate instead of producing the empty-list
fallback. -/
theorem parse_errors_propagate_cex :
    extractKeyPoints (some wMissingCategory) = Except.error PyErr.keyError ∧
    extractKeyPoints (some wBadCategory) = Except.error PyErr.validationError :=
  ⟨rfl, rfl⟩

/-- Claim C2, amended: responses that fail JSON decoding are always
recovered with the stage fallback (extraction: empty key-point list; claim
extraction: empty claim list; dialogue: plan-based fallback script), and
the dialogue parser also recovers missing-key payloads; but decoded
payloads with missing keys in the extraction stage, or enum-violating
field values, raise uncaught errors (see the counterexample). -/
theorem decode_failure_fallback :
    extractKeyPoints none = Except.ok [] ∧
    extractClaims none = Except.ok [] ∧
    (∀ plan : PodcastPlan, parseDialogueJson plan none = Except.ok (fallbackScript plan)) ∧
    ∀ (plan : PodcastPlan) (data : Json),
      parseDialogueCore plan data = Except.error PyErr.keyError →
      parseDialogueJson plan (some data) = Except.ok (fallbackScript plan) := by
  refine ⟨rfl, rfl, fun plan => rfl, ?_⟩
  intro plan data h
  simp only [parseDialogueJson, h]
  rfl

/-- Claim C2, witness for the amended theorem. -/
theorem decode_failure_fallback_wit :
    parseDialogueCore wPlan wKeyErrorDialogue = Except.error PyErr.keyError ∧
    parseDialogueJson wPlan (some wKeyErrorDialogue) =
      Except.ok (fallbackScript wPlan) :=
  ⟨rfl, decode_failure_fallback.2.2.2 wPlan wKeyErrorDialogue rfl⟩

/-- Claim C10: if the initial dialogue-generation response fails to parse,
the stage proceeds with the plan-derived script (title,
friction_moment_summary and takeaway_summary from the plan, empty dialogue,
word_count 0 below the 1800 threshold), and the expansion loop is then
always entered: any successful run makes at least one expansion call. -/
theorem initial_parse_failure_flow :
    (∀ plan : PodcastPlan,
      parseDialogueJson plan none = Except.ok (fallbackScript plan)) ∧
    (∀ plan : PodcastPlan,
      (fallbackScript plan).title = plan.title ∧
      (fallbackScript plan).dialogue = [] ∧
      (fallbackScript plan).friction_moment_summary = plan.friction_moment ∧
      (fallbackScript plan).takeaway_summary = plan.takeaway ∧
      wordCount (fallbackScript plan) = 0 ∧
      wordCount (fallbackScript plan) < MIN_WORDS) ∧
    ∀ (plan : PodcastPlan) (resps : Nat → Option Json) (s : PodcastScript) (n : Nat),
      generateDialogue plan none resps = Except.ok (s, n) → 1 ≤ n := by
  refine ⟨fun plan => rfl,
          fun plan => ⟨rfl, rfl, rfl, rfl, rfl, by simp [wordCount, fallbackScript, MIN_WORDS]⟩,
          ?_⟩
  intro plan resps s n h
  simp only [generateDialogue, parseDialogueJson] at h
  rw [show MAX_EXPANSION_ATTEMPTS = 1 + 1 from rfl] at h
  have hw : wordCount (fallbackScript plan) < MIN_WORDS := by
    simp [wordCount, fallbackScript, MIN_WORDS]
  simpa using expansionLoop_enter plan resps h hw

/-- Claim C10, witness: with every response failing to decode, the run
returns the fallback script after both expansion attempts. -/
theorem initial_parse_failure_flow_wit :
    generateDialogue wPlan none (fun _ => none) =
      Except.ok (fallbackScript wPlan, 2) ∧
    1 ≤ 2 :=
  ⟨rfl, initial_parse_failure_flow.2.2 wPlan (fun _ => none)
          (fallbackScript wPlan) 2 rfl⟩

/-- Claim C7: for every plan, every backend behaviour on the initial and
expansion calls, a successful dialogue-stage run makes at most
`MAX_EXPANSION_ATTEMPTS = 2` expansion calls beyond the initial
generation; and the report built by `verify_script` carries the final
script's actual recomputed word_count. -/
theorem expansion_bounded :
    (∀ (plan : PodcastPlan) (initResp : Option Json)
       (resps : Nat → Option Json) (out : PodcastScript × Nat),
      generateDialogue plan initResp resps = Except.ok out →
      out.2 ≤ MAX_EXPANSION_ATTEMPTS) ∧
    ∀ (script : PodcastScript) (doc : ExtractedDocument)
      (claimResp : Option Json) (batchResps : Nat → Option Json)
      (covResp : Option Json) (r : VerificationReport),
      verifyScript script doc claimResp batchResps covResp = Except.ok r →
      r.script_word_count = wordCount script := by
  constructor
  · intro plan initResp resps out h
    simp only [generateDialogue] at h
    cases hp : parseDialogueJson plan initResp with
    | error e => rw [hp] at h; cases h
    | ok s0 =>
      rw [hp] at h
      cases out with
      | mk s n =>
        simpa using expansionLoop_le plan resps MAX_EXPANSION_ATTEMPTS s0 0 s n h
  · intro script doc claimResp batchResps covResp r h
    simp only [verifyScript] at h
    split at h
    · cases h
    · split at h
      · cases h
      · split at h
        · cases h
        · cases h; rfl

/-- Claim C7, witness: a run whose expansion responses all fail to decode
terminates after exactly 2 expansion calls with a final word_count (0)
still below the threshold, and a full pipeline run reports that actual
word_count. -/
theorem expansion_bounded_wit :
    (generateDialogue wPlan none (fun _ => none) =
      Except.ok (fallbackScript wPlan, 2)) ∧
    (fallbackScript wPlan, 2).2 ≤ MAX_EXPANSION_ATTEMPTS ∧
    wordCount (fallbackScript wPlan) < MIN_WORDS ∧
    (verifyScript wScript wDoc none (fun _ => none) none = Except.ok wReport) ∧
    wReport.script_word_count = wordCount wScript :=
  ⟨rfl,
   expansion_bounded.1 wPlan none (fun _ => none) (fallbackScript wPlan, 2) rfl,
   by decide,
   rfl,
   expansion_bounded.2 wScript wDoc none (fun _ => none) none wReport rfl⟩

/-- Claim C8: the stage partitions the n claims into
ceil(n / BATCH_SIZE) consecutive batches in order (their concatenation is
the original list), each nonempty and of size at most BATCH_SIZE, with
every batch except the last of size exactly BATCH_SIZE = 15; one backend
response is consumed per batch (`verifyBatches` pairs batch k with
response k); 15 claims give exactly one batch (the whole list) and 16
claims give batches of sizes 15 and 1. -/
theorem batch_partition :
    ∀ claims : List ExtractedClaim,
      (toBatches claims).flatten = claims ∧
      (toBatches claims).length = (claims.length + BATCH_SIZE - 1) / BATCH_SIZE ∧
      (∀ b ∈ toBatches claims, 0 < b.length ∧ b.length ≤ BATCH_SIZE) ∧
      (∀ b ∈ (toBatches claims).dropLast, b.length = BATCH_SIZE) ∧
      (claims.length = 15 → toBatches claims = [claims]) ∧
      (claims.length = 16 → (toBatches claims).map List.length = [15, 1]) ∧
      ∀ resps : Nat → Option Json,
        verifyClaimsBatched claims resps = verifyBatches resps (toBatches claims) := by
  intro claims
  refine ⟨toBatches_flat claims, toBatches_length claims, toBatches_sizes claims,
          toBatches_dropLast claims, ?_, ?_, fun resps => rfl⟩
  · intro h15
    cases claims with
    | nil => simp at h15
    | cons x xs =>
      rw [toBatches_cons]
      have hlen : (x :: xs).length = 15 := h15
      rw [List.take_of_length_le (by rw [hlen]; simp [BATCH_SIZE]),
          List.drop_eq_nil_iff.mpr (by rw [hlen]; simp [BATCH_SIZE]), toBatches_nil]
  · intro h16
    cases claims with
    | nil => simp at h16
    | cons x xs =>
      rw [toBatches_cons]
      have hdlen : ((x :: xs).drop BATCH_SIZE).length = 1 := by
        simp only [List.length_drop]
        rw [h16]
        simp [BATCH_SIZE]
      cases hd : (x :: xs).drop BATCH_SIZE with
      | nil => rw [hd] at hdlen; simp at hdlen
      | cons y ys =>
        rw [hd] at hdlen
        simp only [List.length_cons] at hdlen
        have hys : ys = [] := List.length_eq_zero.mp (by omega)
        subst hys
        have h1 : toBatches [y] = [[y]] := by
          rw [toBatches_cons, List.take_of_length_le (by simp [BATCH_SIZE]),
              List.drop_eq_nil_iff.mpr (by simp [BATCH_SIZE]), toBatches_nil]
        rw [h1]
        have hxs : xs.length = 15 := by simpa using h16
        simp [List.length_take, hxs, BATCH_SIZE]

/-- Claim C8, witness: concrete 15- and 16-element claim lists. -/
theorem batch_partition_wit :
    (List.replicate 15 wClaim0).length = 15 ∧
    toBatches (List.replicate 15 wClaim0) = [List.replicate 15 wClaim0] ∧
    (List.replicate 16 wClaim0).length = 16 ∧
    (toBatches (List.replicate 16 wClaim0)).map List.length = [15, 1] :=
  ⟨by decide,
   (batch_partition (List.replicate 15 wClaim0)).2.2.2.2.1 (by decide),
   by decide,
   (batch_partition (List.replicate 16 wClaim0)).2.2.2.2.2.1 (by decide)⟩

/-- Claim C3, counterexample: a per-batch response that decodes to a JSON
array (a malformed, non-object payload) makes the stage raise an uncaught
`AttributeError` (`data.get` on a list) instead of returning one
ClaimVerification per claim. -/
theorem verify_batched_crash_cex :
    verifyClaimsBatched [wClaim0] (fun _ => some (Json.arr [])) =
      Except.error PyErr.attributeError := rfl

/-- Claim C3, amended: whenever the stage returns (in particular for
responses that fail JSON decoding, and for decoded objects whose
verification entries are well-typed), it returns exactly one
ClaimVerification per input claim in the original claim order (an empty
claim list yields an empty list); each output retains its claim's text and
script context; a claim of a batch whose response failed to decode gets
status NOT_FOUND with explanation "Batch verification failed"; and a claim
whose local index (its position modulo BATCH_SIZE) is absent from its
batch's decoded verification entries gets status NOT_FOUND with
explanation "No verification returned".  A decodable non-object response
instead raises an uncaught error (see the counterexample). -/
theorem verify_batched_amended :
    ∀ (claims : List ExtractedClaim) (resps : Nat → Option Json)
      (vs : List ClaimVerification),
      verifyClaimsBatched claims resps = Except.ok vs →
      vs.length = claims.length ∧
      (claims = [] → vs = []) ∧
      ∀ (k : Nat) (hk : k < claims.length) (hk' : k < vs.length),
        (vs[k].claim = claims[k].claim ∧
         vs[k].script_context = claims[k].script_context) ∧
        (resps (k / BATCH_SIZE) = none → vs[k] = failedCV claims[k]) ∧
        (∀ data : Json, resps (k / BATCH_SIZE) = some data →
          ∀ bvs : List Json, respVerifEntries data = Except.ok bvs →
            findByClaimId bvs (Int.ofNat (k % BATCH_SIZE)) = Except.ok none →
            vs[k] = defaultCV claims[k]) := by
  intro claims resps vs h
  have hs := verifyClaimsBatched_ok_spec claims resps vs h
  refine ⟨hs.1, ?_, hs.2⟩
  intro hc
  subst hc
  exact List.length_eq_zero.mp hs.1

/-- Claim C3, witness: two claims in one batch; the response verifies local
index 0 and omits index 1, which is defaulted to NOT_FOUND / "No
verification returned" while keeping its claim text and context. -/
theorem verify_batched_amended_wit :
    (verifyClaimsBatched [wClaim0, wClaim1] (fun _ => some wVerifResp) =
      Except.ok [{ claim := "claim zero", script_context := "context zero",
                   source_page := none, source_quote := none,
                   status := VStatus.SUPPORTED, explanation := "ok" },
                 defaultCV wClaim1]) ∧
    ([{ claim := "claim zero", script_context := "context zero",
        source_page := none, source_quote := none,
        status := VStatus.SUPPORTED, explanation := "ok" },
      defaultCV wClaim1] : List ClaimVerification).length = 2 ∧
    ([{ claim := "claim zero", script_context := "context zero",
        source_page := none, source_quote := none,
        status := VStatus.SUPPORTED, explanation := "ok" },
      defaultCV wClaim1] : List ClaimVerification).get ⟨1, by decide⟩ =
      defaultCV wClaim1 := by
  have h := verify_batched_amended [wClaim0, wClaim1] (fun _ => some wVerifResp)
    [{ claim := "claim zero", script_context := "context zero",
       source_page := none, source_quote := none,
       status := VStatus.SUPPORTED, explanation := "ok" },
     defaultCV wClaim1] rfl
  refine ⟨rfl, h.1, ?_⟩
  exact (h.2.2 1 (by decide) (by decide)).2.2 wVerifResp rfl
    [Json.obj [("claim_id", Json.num 0), ("status", Json.str "SUPPORTED"),
               ("explanation", Json.str "ok")]] rfl rfl

/-- Claim C4, counterexample: a coverage response that decodes to a JSON
array (a malformed, non-object payload) makes the stage raise an uncaught
`AttributeError` (`data.get` on a list) instead of returning one
CoverageItem per section. -/
theorem coverage_crash_cex :
    analyzeCoverageBatched [wSection] (some (Json.arr [])) =
      Except.error PyErr.attributeError := rfl

/-- Claim C4, amended: whenever the stage returns (in particular for
responses that fail JSON decoding, and for decoded objects whose coverage
entries are well-typed), it returns exactly one CoverageItem per
configured section in the input order; a section whose exact name is
absent from the decoded coverage entries — and every section when the
response fails to decode — receives the synthesized safe default: status
PARTIAL, key_points_covered 0, empty covered list, and the omitted list
holding all of the section's key-point texts.  A decodable non-object
response instead raises an uncaught error (see the counterexample). -/
theorem coverage_amended :
    (∀ s : SectionContent,
      (fallbackCoverage s).status = CStatus.PARTIAL ∧
      (fallbackCoverage s).key_points_covered = 0 ∧
      (fallbackCoverage s).covered = [] ∧
      (fallbackCoverage s).omitted = s.key_points.map (fun kp => kp.point)) ∧
    ∀ (sections : List SectionContent) (resp : Option Json)
      (items : List CoverageItem),
      analyzeCoverageBatched sections resp = Except.ok items →
      items.length = sections.length ∧
      ∀ (k : Nat) (hk : k < sections.length) (hk' : k < items.length),
        items[k].«section» = sections[k].name ∧
        (resp = none → items[k] = fallbackCoverage sections[k]) ∧
        (∀ data : Json, resp = some data →
          ∀ cov : List Json, respCoverageEntries data = Except.ok cov →
            findBySection cov sections[k].name = Except.ok none →
            items[k] = fallbackCoverage sections[k]) :=
  ⟨fun s => ⟨rfl, rfl, rfl, rfl⟩,
   fun _ _ _ h => analyzeCoverage_ok_spec h⟩

/-- Claim C4, witness: a decoded response whose coverage list is empty
omits the configured section by name, which gets the synthesized PARTIAL
default. -/
theorem coverage_amended_wit :
    (analyzeCoverageBatched [wSection] (some wEmptyCov) =
      Except.ok [fallbackCoverage wSection]) ∧
    ([fallbackCoverage wSection].get ⟨0, by decide⟩ : CoverageItem) =
      fallbackCoverage wSection := by
  have h := coverage_amended.2 [wSection] (some wEmptyCov)
    [fallbackCoverage wSection] rfl
  exact ⟨rfl, (h.2 0 (by decide) (by decide)).2.2 wEmptyCov rfl [] rfl rfl⟩

/-- Claim C5, counterexample: a coverage item built by the stage from a
backend response reporting 500 covered points out of a total of 1 drives
overall_coverage_percentage to 50000, far outside [0, 100]. -/
theorem coverage_pct_out_of_range_cex :
    analyzeCoverageBatched [wSection] (some wCoverageResp) =
      Except.ok [wBigItem] ∧
    coveragePct [wBigItem] = 50000 ∧
    ¬ coveragePct [wBigItem] ≤ 100 := by
  have ht : totalKeyPoints [wBigItem] = 1 := by decide
  have hc : coveredKeyPoints [wBigItem] = 500 := by decide
  have hpct : coveragePct [wBigItem] = 50000 := by
    unfold coveragePct
    rw [ht, hc]
    norm_num
  refine ⟨rfl, hpct, ?_⟩
  rw [hpct]
  norm_num

/-- Claim C5, amended: support_rate is always within [0, 100] and is
exactly 0 for an empty verification list; overall_coverage_percentage is
exactly 0 whenever the summed key_points_total is not positive, and lies
within [0, 100] whenever every coverage item reports
0 ≤ key_points_covered ≤ key_points_total (as the synthesized fallback
items do); backend-reported counts outside that range can push it outside
[0, 100] (see the counterexample). -/
theorem rates_bounded_amended :
    (∀ vs : List ClaimVerification, 0 ≤ supportRate vs ∧ supportRate vs ≤ 100) ∧
    supportRate [] = 0 ∧
    (∀ items : List CoverageItem,
      (∀ it ∈ items, 0 ≤ it.key_points_covered ∧
        it.key_points_covered ≤ it.key_points_total) →
      0 ≤ coveragePct items ∧ coveragePct items ≤ 100) ∧
    (∀ items : List CoverageItem, totalKeyPoints items ≤ 0 → coveragePct items = 0) ∧
    ∀ s : SectionContent,
      0 ≤ (fallbackCoverage s).key_points_covered ∧
      (fallbackCoverage s).key_points_covered ≤ (fallbackCoverage s).key_points_total := by
  refine ⟨supportRate_bounds, rfl, fun items h => coveragePct_bounds h,
          fun items h => coveragePct_zero h, ?_⟩
  intro s
  constructor
  · exact le_refl 0
  · show (0 : Int) ≤ Int.ofNat s.key_points.length
    exact Int.ofNat_nonneg _

/-- Claim C5, witness: the bounds applied to the concrete synthesized
fallback item, and the zero case applied to the empty item list. -/
theorem rates_bounded_amended_wit :
    (∀ it ∈ [fallbackCoverage wSection],
      0 ≤ it.key_points_covered ∧ it.key_points_covered ≤ it.key_points_total) ∧
    (0 ≤ coveragePct [fallbackCoverage wSection] ∧
     coveragePct [fallbackCoverage wSection] ≤ 100) ∧
    totalKeyPoints ([] : List CoverageItem) ≤ 0 ∧
    coveragePct ([] : List CoverageItem) = 0 :=
  ⟨by decide,
   rates_bounded_amended.2.2.1 [fallbackCoverage wSection] (by decide),
   by decide,
   rates_bounded_amended.2.2.2.1 [] (by decide)⟩

/-- Claim C6, counterexample: a coverage item built by the stage from a
backend response reporting key_points_total = -1 has a nonzero total, yet
the aggregator returns 0 rather than the claimed formula value
sum(covered)/sum(total)*100 = -500 — the code's guard is `total > 0`, not
`total ≠ 0`. -/
theorem coverage_formula_mismatch_cex :
    analyzeCoverageBatched [wSection] (some wNegResp) =
      Except.ok [wNegTotalItem] ∧
    totalKeyPoints [wNegTotalItem] = -1 ∧
    coveragePct [wNegTotalItem] = 0 ∧
    (coveredKeyPoints [wNegTotalItem] : Rat) /
      (totalKeyPoints [wNegTotalItem] : Rat) * 100 = -500 ∧
    coveragePct [wNegTotalItem] ≠
      (coveredKeyPoints [wNegTotalItem] : Rat) /
        (totalKeyPoints [wNegTotalItem] : Rat) * 100 := by
  have ht : totalKeyPoints [wNegTotalItem] = -1 := by decide
  have hc : coveredKeyPoints [wNegTotalItem] = 5 := by decide
  have hz : coveragePct [wNegTotalItem] = 0 := by
    unfold coveragePct
    rw [ht]
    norm_num
  have hf : (coveredKeyPoints [wNegTotalItem] : Rat) /
      (totalKeyPoints [wNegTotalItem] : Rat) * 100 = -500 := by
    rw [ht, hc]
    norm_num
  refine ⟨rfl, ht, hz, hf, ?_⟩
  rw [hz, hf]
  norm_num

/-- Claim C6, amended: support_rate is computed exactly as the spec's
formula, (supported + 0.5 * partially_supported) / total * 100 with 0 for
an empty list; overall_coverage_percentage equals
sum(key_points_covered)/sum(key_points_total)*100 whenever the summed
total is positive and is 0 whenever it is not positive — in particular 0
when the total is 0, but also 0 (not the formula value) for negative
totals (see the counterexample); and the report fields carry exactly these
two computations over the report's own verification and coverage lists. -/
theorem aggregator_formulas_amended :
    (∀ vs : List ClaimVerification, supportRate vs = supportRateSpec vs) ∧
    (∀ items : List CoverageItem, 0 < totalKeyPoints items →
      coveragePct items =
        (coveredKeyPoints items : Rat) / (totalKeyPoints items : Rat) * 100) ∧
    (∀ items : List CoverageItem, totalKeyPoints items ≤ 0 → coveragePct items = 0) ∧
    ∀ (script : PodcastScript) (doc : ExtractedDocument)
      (claimResp : Option Json) (batchResps : Nat → Option Json)
      (covResp : Option Json) (r : VerificationReport),
      verifyScript script doc claimResp batchResps covResp = Except.ok r →
      r.support_rate = supportRate r.claim_verifications ∧
      r.overall_coverage_percentage = coveragePct r.coverage_analysis := by
  refine ⟨supportRate_eq_spec, ?_, fun items h => coveragePct_zero h, ?_⟩
  · intro items h
    unfold coveragePct
    rw [if_pos h]
  · intro script doc claimResp batchResps covResp r h
    simp only [verifyScript] at h
    split at h
    · cases h
    · split at h
      · cases h
      · split at h
        · cases h
        · cases h; exact ⟨rfl, rfl⟩

/-- Claim C6, witness: the positive-total formula applied to a concrete
item list, and the report-field equalities on a concrete pipeline run. -/
theorem aggregator_formulas_amended_wit :
    (0 < totalKeyPoints [wBigItem]) ∧
    coveragePct [wBigItem] =
      (coveredKeyPoints [wBigItem] : Rat) / (totalKeyPoints [wBigItem] : Rat) * 100 ∧
    (verifyScript wScript wDoc none (fun _ => none) none = Except.ok wReport) ∧
    wReport.support_rate = supportRate wReport.claim_verifications :=
  ⟨by decide,
   aggregator_formulas_amended.2.1 [wBigItem] (by decide),
   rfl,
   (aggregator_formulas_amended.2.2.2 wScript wDoc none (fun _ => none) none
      wReport rfl).1⟩

/-- Claim C9, counterexample: the claim-extraction stage copies the
backend-reported line_index without any bounds check: a response reporting
line_index 99 yields an ExtractedClaim whose line_index is not a valid
index into the one-line script `wScript` that the prompt was built from. -/
theorem line_index_invalid_cex :
    extractClaims (some wClaimsResp99) =
      Except.ok [{ claim := "c", script_context := "x", line_index := 99 }] ∧
    wScript.dialogue.length = 1 ∧
    ¬ (99 : Int) < (wScript.dialogue.length : Int) :=
  ⟨rfl, rfl, by decide⟩

/-- Claim C9, amended: line_index is copied from the backend response
without validation (0 when the entry omits it); every extracted claim's
line_index is a valid index into the producing script's dialogue (of
length n) provided each claims entry of the response reports a line_index
in [0, n) — entries omitting line_index require n > 0; a decode failure
yields no claims at all. -/
theorem line_index_conditional :
    extractClaims none = Except.ok [] ∧
    ∀ (data : Json) (claims : List ExtractedClaim) (n : Nat),
      extractClaims (some data) = Except.ok claims →
      (∀ e ∈ respClaimEntries data, entryIdxOK n e = true) →
      ∀ c ∈ claims, 0 ≤ c.line_index ∧ c.line_index < (n : Int) :=
  ⟨rfl, fun _ _ _ h hok => extractClaims_idx_spec h hok⟩

/-- Claim C9, witness: a response reporting line_index 0 against a
one-line dialogue. -/
theorem line_index_conditional_wit :
    (extractClaims (some wClaimsRespGood) =
      Except.ok [{ claim := "c", script_context := "x", line_index := 0 }]) ∧
    (0 : Int) ≤ (0 : Int) ∧ (0 : Int) < ((1 : Nat) : Int) := by
  have h := line_index_conditional.2 wClaimsRespGood
    [{ claim := "c", script_context := "x", line_index := 0 }] 1 rfl
    (by decide)
    { claim := "c", script_context := "x", line_index := 0 }
    (List.mem_singleton.mpr rfl)
  exact ⟨rfl, h.1, h.2⟩
